import Mathlib

/-!
# Verification of the LINE-OA multi-tenant webhook backend

Shallow embedding of the event-routing / idempotency / payment-reconciliation
core of the repository (`dao.py`, `core/line_events.py`, `lineoa_frontend.py`,
`admin/onboarding.py`) together with proofs of the specified properties.

Conventions used throughout:
* Firestore documents become Lean structures; a fetched query result becomes a
  `List` of such structures, in the order the query returns them.
* Python `str` becomes `String`; a falsy/absent string field becomes
  `Option String` (with `none` for Python `None`/`""` where the source only
  tests truthiness) or a `String` compared with `""` where the source keeps
  the empty string around.
* Timestamps become rational minutes (`ℚ`); `now` and window widths are
  explicit parameters.
* Python `float` amounts become `ℚ` (the source only adds, subtracts,
  compares and takes absolute values in the properties proved below).
-/

namespace LineOA

/-! ## 1. Event deduplication — `dao.ensure_event_once`

`dao.py` lines 91-109.  The durable per-tenant seen-set
`shops/{shopId}/events_seen/{eventId}` is modelled as a list of
`(shop_id, event_id)` keys.  `ref.create` is Firestore's create-if-absent:
it raises `AlreadyExists` when the document already exists, which the source
converts into `False`. -/

abbrev DedupKey := String × String

abbrev DedupStore := List DedupKey

/-- `dao.ensure_event_once(shop_id, event_id)`: an empty `event_id` is treated
as always new (the source returns `True` before touching the store); otherwise
a single `ref.create` that fails with `AlreadyExists` iff the key exists. -/
def ensure_event_once (store : DedupStore) (shop_id event_id : String) :
    Bool × DedupStore :=
  if event_id = "" then (true, store)
  else if (shop_id, event_id) ∈ store then (false, store)
  else (true, (shop_id, event_id) :: store)

/-- Run a sequence of `ensure_event_once` calls, returning the result list. -/
def runEnsure : DedupStore → List DedupKey → List Bool
  | _, [] => []
  | st, (s, e) :: rest =>
      let r := ensure_event_once st s e
      r.1 :: runEnsure r.2 rest

theorem runEnsure_length (st : DedupStore) (calls : List DedupKey) :
    (runEnsure st calls).length = calls.length := by
  induction calls generalizing st with
  | nil => rfl
  | cons c rest ih =>
      obtain ⟨s, e⟩ := c
      simp [runEnsure, ih]

theorem ensure_store_mem (st : DedupStore) (s e : String) (p : DedupKey) :
    p ∈ (ensure_event_once st s e).2 ↔ (p ∈ st ∨ (p = (s, e) ∧ e ≠ "")) := by
  unfold ensure_event_once
  by_cases he : e = ""
  · subst he
    simp
  · by_cases hm : (s, e) ∈ st
    · simp only [if_neg he, if_pos hm]
      constructor
      · exact fun h => Or.inl h
      · rintro (h | ⟨rfl, -⟩)
        · exact h
        · exact hm
    · simp only [if_neg he, if_neg hm, List.mem_cons]
      constructor
      · rintro (rfl | h)
        · exact Or.inr ⟨rfl, he⟩
        · exact Or.inl h
      · rintro (h | ⟨rfl, -⟩)
        · exact Or.inr h
        · exact Or.inl rfl

/-- Core trace characterisation: the `i`-th result of a run is `true` iff the
`i`-th event id is empty, or its key is neither in the initial store nor among
the earlier calls of the trace. -/
theorem runEnsure_getElem (st : DedupStore) (calls : List DedupKey) (i : Nat)
    (p : DedupKey) (hp : calls[i]? = some p) :
    (runEnsure st calls)[i]? = some true ↔
      (p.2 = "" ∨ (p ∉ st ∧ p ∉ calls.take i)) := by
  induction calls generalizing st i with
  | nil => simp at hp
  | cons c rest ih =>
      obtain ⟨s, e⟩ := c
      cases i with
      | zero =>
          rw [List.getElem?_cons_zero, Option.some_inj] at hp
          subst hp
          simp only [runEnsure, List.getElem?_cons_zero, Option.some_inj,
            List.take_zero, List.not_mem_nil, not_false_eq_true, and_true]
          unfold ensure_event_once
          by_cases he : e = ""
          · simp [he]
          · by_cases hm : (s, e) ∈ st
            · simp [if_neg he, if_pos hm, he, hm]
            · simp [if_neg he, if_neg hm, he, hm]
      | succ i' =>
          rw [List.getElem?_cons_succ] at hp
          simp only [runEnsure, List.getElem?_cons_succ]
          rw [ih (ensure_event_once st s e).2 i' hp]
          by_cases hpe : p.2 = ""
          · simp [hpe]
          · have hmem : p ∉ (ensure_event_once st s e).2 ↔ (p ∉ st ∧ p ≠ (s, e)) := by
              rw [ensure_store_mem]
              constructor
              · intro hn
                refine ⟨fun hst => hn (Or.inl hst), fun hpeq => ?_⟩
                refine hn (Or.inr ⟨hpeq, ?_⟩)
                intro he0
                exact hpe (by rw [hpeq]; exact he0)
              · rintro ⟨hst, hne⟩ (hin | ⟨hpeq, -⟩)
                · exact hst hin
                · exact hne hpeq
            have htake : (p ∉ ((s, e) :: rest).take (i' + 1)) ↔
                (p ≠ (s, e) ∧ p ∉ rest.take i') := by
              simp only [List.take_succ_cons, List.mem_cons]
              tauto
            rw [hmem, htake]
            tauto

/-- **C1.** In any trace of `ensure_event_once` calls starting from an empty
seen-set, the call at position `i` (on pair `p`) returns `true` iff its event
id is empty or no earlier call used the same pair — so for a non-empty event
id the first call returns `true` and all repeats return `false`, while a call
whose event id is empty always returns `true`. -/
theorem claim_C1_dedup_first_once (calls : List DedupKey) (i : Nat)
    (p : DedupKey) (hp : calls[i]? = some p) :
    (runEnsure [] calls)[i]? = some true ↔
      (p.2 = "" ∨ p ∉ calls.take i) := by
  rw [runEnsure_getElem [] calls i p hp]
  simp

/-- Witness for C1 on a concrete trace: shop "s" sees event "e1" (new), then
"e1" again (duplicate), then an empty event id (always new). -/
theorem claim_C1_dedup_first_once_witness :
    ([("s", "e1"), ("s", "e1"), ("s", "")] : List DedupKey)[1]? =
        some ("s", "e1") ∧
      (runEnsure [] [("s", "e1"), ("s", "e1"), ("s", "")])[1]? = some false ∧
      (runEnsure [] [("s", "e1"), ("s", "e1"), ("s", "")])[0]? = some true ∧
      (runEnsure [] [("s", "e1"), ("s", "e1"), ("s", "")])[2]? = some true := by
  have h := claim_C1_dedup_first_once [("s", "e1"), ("s", "e1"), ("s", "")] 1
    ("s", "e1") (by decide)
  refine ⟨by decide, ?_, by decide, by decide⟩
  have hnot : ¬((("s", "e1") : DedupKey).2 = "" ∨
      (("s", "e1") : DedupKey) ∉
        ([("s", "e1"), ("s", "e1"), ("s", "")] : List DedupKey).take 1) := by
    decide
  revert hnot h
  decide

/-! ## 2. Atomicity of the dedup claim — C9

The deduplicator invoked by the webhook router (`lineoa_frontend.py` line 78
imports it from `dao`) performs its claim as the single store primitive
`ref.create(...)` (`dao.py` lines 105-109): everything between entry and
return is one create-if-absent RPC.  We make atomicity checkable by writing
each claim implementation as a *list of primitive store actions* and running
two concurrent claims on the same `(tenant, event id)` key under every
schedule.  For contrast, `core/line_events.ensure_event_once` (lines 64-74,
imported by `admin/blueprint.py` but never called) is a `get` followed by a
`set` — two primitives.

The shared store is collapsed to the single key in question: `Bool` = "the
dedup marker document exists". -/

/-- Primitive store actions on the dedup marker for one key. -/
inductive MicroOp where
  | createIfAbsent : MicroOp
  | readPresent : MicroOp
  | setSeen : MicroOp
  deriving DecidableEq, Repr

/-- One thread executing a claim: remaining primitives, the value returned by
its last `read`, and the claim's result once it is known. -/
structure Thread where
  prog : List MicroOp
  readVal : Bool
  res : Option Bool
  deriving DecidableEq, Repr

/-- `dao.ensure_event_once`'s store interaction: one atomic create-if-absent
(returning `True` on success, `False` on `AlreadyExists`). -/
def dao_claim_prog : List MicroOp := [MicroOp.createIfAbsent]

/-- `core.line_events.ensure_event_once`'s store interaction: a read of
`snap.exists` followed by a `set` (the function returns `False` iff the read
saw the marker). -/
def core_claim_prog : List MicroOp := [MicroOp.readPresent, MicroOp.setSeen]

/-- Execute one primitive of a thread against the store. -/
def stepMicro (store : Bool) (t : Thread) : Bool × Thread :=
  match t.prog with
  | [] => (store, t)
  | op :: rest =>
      match op with
      | MicroOp.createIfAbsent =>
          if store then (true, ⟨rest, t.readVal, some false⟩)
          else (true, ⟨rest, t.readVal, some true⟩)
      | MicroOp.readPresent => (store, ⟨rest, store, t.res⟩)
      | MicroOp.setSeen => (true, ⟨rest, t.readVal, t.res⟩)

/-- Run two threads under a schedule (`true` = thread 1 takes the next
primitive step, `false` = thread 2). -/
def runSched : Bool → Thread → Thread → List Bool → Bool × Thread × Thread
  | store, t1, t2, [] => (store, t1, t2)
  | store, t1, t2, b :: rest =>
      if b then
        let r := stepMicro store t1
        runSched r.1 r.2 t2 rest
      else
        let r := stepMicro store t2
        runSched r.1 t1 r.2 rest

/-- Invariant carried through every interleaving of two `dao` claims: a thread
holds result `true` only if the marker is now set, never both threads, and a
marker that was set initially stays set with no `true` results. -/
def DaoInv (store0 : Bool) (store : Bool) (t1 t2 : Thread) : Prop :=
  (t1.prog = [] ∨ t1.prog = dao_claim_prog) ∧
  (t2.prog = [] ∨ t2.prog = dao_claim_prog) ∧
  (t1.res = some true → store = true) ∧
  (t2.res = some true → store = true) ∧
  ¬(t1.res = some true ∧ t2.res = some true) ∧
  (store0 = true → store = true) ∧
  (store0 = true → t1.res ≠ some true ∧ t2.res ≠ some true) ∧
  (t1.prog = dao_claim_prog → t1.res = none) ∧
  (t2.prog = dao_claim_prog → t2.res = none) ∧
  (t1.res = some true → t2.res = some true → False)

theorem daoInv_step1 (store0 store : Bool) (t1 t2 : Thread)
    (h : DaoInv store0 store t1 t2) :
    DaoInv store0 (stepMicro store t1).1 (stepMicro store t1).2 t2 := by
  obtain ⟨hp1, hp2, hr1, hr2, hboth, hs0, hres0, hn1, hn2, -⟩ := h
  rcases hp1 with hp1 | hp1
  · simp only [stepMicro, hp1]
    exact ⟨Or.inl hp1, hp2, hr1, hr2, hboth, hs0, hres0, by simp [hp1, dao_claim_prog], hn2,
      fun a b => hboth ⟨a, b⟩⟩
  · have hnone := hn1 hp1
    simp only [stepMicro, hp1, dao_claim_prog]
    by_cases hst : store = true
    · simp only [hst, if_true]
      refine ⟨Or.inl rfl, hp2, by simp, fun h2 => rfl, by simp, fun _ => rfl, ?_, by
        simp [dao_claim_prog], hn2, by simp⟩
      intro h0
      exact ⟨by simp, (hres0 h0).2⟩
    · have hst' : store = false := by
        cases store
        · rfl
        · exact absurd rfl hst
      subst hst'
      simp only [if_false, Bool.false_eq_true]
      refine ⟨Or.inl rfl, hp2, fun _ => rfl, ?_, ?_, by simp [hs0], ?_, by
        simp [dao_claim_prog], hn2, ?_⟩
      · intro h2
        exact absurd (hr2 h2) (by simp)
      · rintro ⟨-, h2⟩
        exact absurd (hr2 h2) (by simp)
      · intro h0
        exact absurd (hs0 h0) (by simp)
      · intro _ h2
        exact absurd (hr2 h2) (by simp)

theorem daoInv_step2 (store0 store : Bool) (t1 t2 : Thread)
    (h : DaoInv store0 store t1 t2) :
    DaoInv store0 (stepMicro store t2).1 t1 (stepMicro store t2).2 := by
  obtain ⟨hp1, hp2, hr1, hr2, hboth, hs0, hres0, hn1, hn2, -⟩ := h
  rcases hp2 with hp2 | hp2
  · simp only [stepMicro, hp2]
    exact ⟨hp1, Or.inl hp2, hr1, hr2, hboth, hs0, hres0, hn1, by simp [hp2, dao_claim_prog],
      fun a b => hboth ⟨a, b⟩⟩
  · have hnone := hn2 hp2
    simp only [stepMicro, hp2, dao_claim_prog]
    by_cases hst : store = true
    · simp only [hst, if_true]
      refine ⟨hp1, Or.inl rfl, fun h1 => rfl, by simp, by simp, fun _ => rfl, ?_, hn1, by
        simp [dao_claim_prog], by simp⟩
      intro h0
      exact ⟨(hres0 h0).1, by simp⟩
    · have hst' : store = false := by
        cases store
        · rfl
        · exact absurd rfl hst
      subst hst'
      simp only [if_false, Bool.false_eq_true]
      refine ⟨hp1, Or.inl rfl, ?_, fun _ => rfl, ?_, by simp [hs0], ?_, hn1, by
        simp [dao_claim_prog], ?_⟩
      · intro h1
        exact absurd (hr1 h1) (by simp)
      · rintro ⟨h1, -⟩
        exact absurd (hr1 h1) (by simp)
      · intro h0
        exact absurd (hs0 h0) (by simp)
      · intro h1 _
        exact absurd (hr1 h1) (by simp)

theorem daoInv_run (store0 : Bool) (sched : List Bool) (store : Bool)
    (t1 t2 : Thread) (h : DaoInv store0 store t1 t2) :
    DaoInv store0 (runSched store t1 t2 sched).1
      (runSched store t1 t2 sched).2.1 (runSched store t1 t2 sched).2.2 := by
  induction sched generalizing store t1 t2 with
  | nil => exact h
  | cons b rest ih =>
      cases b
      · simpa [runSched] using ih _ _ _ (daoInv_step2 store0 store t1 t2 h)
      · simpa [runSched] using ih _ _ _ (daoInv_step1 store0 store t1 t2 h)

/-- **C9.** The dedup claim used by the webhook router (`dao.ensure_event_once`)
is a single atomic create-if-absent store primitive (`dao_claim_prog` has
exactly one action), and under every schedule interleaving two such claims on
the same `(tenant, event id)` key: at most one of the two returns `is-new`,
and if the marker already existed (a duplicate), neither returns `is-new`. -/
theorem claim_C9_dedup_atomic (sched : List Bool) (store0 : Bool) :
    dao_claim_prog.length = 1 ∧
      (¬((runSched store0 ⟨dao_claim_prog, false, none⟩
            ⟨dao_claim_prog, false, none⟩ sched).2.1.res = some true ∧
         (runSched store0 ⟨dao_claim_prog, false, none⟩
            ⟨dao_claim_prog, false, none⟩ sched).2.2.res = some true)) ∧
      (store0 = true →
        (runSched store0 ⟨dao_claim_prog, false, none⟩
            ⟨dao_claim_prog, false, none⟩ sched).2.1.res ≠ some true ∧
        (runSched store0 ⟨dao_claim_prog, false, none⟩
            ⟨dao_claim_prog, false, none⟩ sched).2.2.res ≠ some true) := by
  have hinv : DaoInv store0 store0 ⟨dao_claim_prog, false, none⟩
      ⟨dao_claim_prog, false, none⟩ := by
    refine ⟨Or.inr rfl, Or.inr rfl, by simp, by simp, by simp, fun h => h, ?_, fun _ => rfl,
      fun _ => rfl, by simp⟩
    intro _
    exact ⟨by simp, by simp⟩
  have h := daoInv_run store0 sched store0 _ _ hinv
  exact ⟨rfl, h.2.2.2.2.1, h.2.2.2.2.2.2.1⟩

/-- Witness for C9 at a concrete schedule: thread 1 then thread 2, starting
with the marker already present — both threads report a duplicate. -/
theorem claim_C9_dedup_atomic_witness :
    (¬((runSched true ⟨dao_claim_prog, false, none⟩
          ⟨dao_claim_prog, false, none⟩ [true, false]).2.1.res = some true ∧
       (runSched true ⟨dao_claim_prog, false, none⟩
          ⟨dao_claim_prog, false, none⟩ [true, false]).2.2.res = some true)) ∧
      ((runSched true ⟨dao_claim_prog, false, none⟩
          ⟨dao_claim_prog, false, none⟩ [true, false]).2.1.res ≠ some true) := by
  have h := claim_C9_dedup_atomic [true, false] true
  exact ⟨h.2.1, (h.2.2 rfl).1⟩

/-- Contrast (not a claimed property): the read-then-write variant in
`core/line_events.ensure_event_once` admits an interleaving — both threads
read before either writes — in which **both** concurrent claims report
`is-new`, so it does not have C9's guarantee.  It is imported by
`admin/blueprint.py` but never invoked. -/
theorem core_claim_read_then_write_races :
    ((runSched false ⟨core_claim_prog, false, none⟩
        ⟨core_claim_prog, false, none⟩ [true, false, true, false]).2.1.readVal = false) ∧
    ((runSched false ⟨core_claim_prog, false, none⟩
        ⟨core_claim_prog, false, none⟩ [true, false, true, false]).2.2.readVal = false) := by
  decide

/-! ## 3. Webhook signature verification — C2

`lineoa_frontend.py` lines 729-731 (`_compute_signature`: HMAC-SHA256 over
the raw body keyed by the channel secret, base64-encoded) and lines 1238-1244
of `line_webhook` (missing secret → `abort(500)`; `hmac.compare_digest`
mismatch → `abort(400)`; otherwise the events are dispatched).

SHA-256, HMAC and base64 are implemented concretely (FIPS 180-4 / RFC 2104 /
RFC 4648) so that the signature computation is executable; bytes are `Nat`
values `< 256` and 32-bit words are `Nat` values reduced `% 2^32`.
`hmac.compare_digest` is functionally string equality (its constant-time
execution is a timing property outside this embedding). -/

def M32 : Nat := 4294967296

def add32 (a b : Nat) : Nat := (a + b) % M32

def rotr32 (x k : Nat) : Nat := ((x >>> k) + (x <<< (32 - k))) % M32

def xor32 (a b : Nat) : Nat := Nat.xor a b

def not32 (a : Nat) : Nat := Nat.xor a 4294967295

def chOf (x y z : Nat) : Nat := xor32 (Nat.land x y) (Nat.land (not32 x) z)

def majOf (x y z : Nat) : Nat :=
  xor32 (xor32 (Nat.land x y) (Nat.land x z)) (Nat.land y z)

def bigSigma0 (x : Nat) : Nat :=
  xor32 (xor32 (rotr32 x 2) (rotr32 x 13)) (rotr32 x 22)

def bigSigma1 (x : Nat) : Nat :=
  xor32 (xor32 (rotr32 x 6) (rotr32 x 11)) (rotr32 x 25)

def smallSigma0 (x : Nat) : Nat :=
  xor32 (xor32 (rotr32 x 7) (rotr32 x 18)) (x >>> 3)

def smallSigma1 (x : Nat) : Nat :=
  xor32 (xor32 (rotr32 x 17) (rotr32 x 19)) (x >>> 10)

/-- The 64 SHA-256 round constants (FIPS 180-4 §4.2.2). -/
def shaK : List Nat :=
  [1116352408, 1899447441, 3049323471, 3921009573,
   961987163, 1508970993, 2453635748, 2870763221,
   3624381080, 310598401, 607225278, 1426881987,
   1925078388, 2162078206, 2614888103, 3248222580,
   3835390401, 4022224774, 264347078, 604807628,
   770255983, 1249150122, 1555081692, 1996064986,
   2554220882, 2821834349, 2952996808, 3210313671,
   3336571891, 3584528711, 113926993, 338241895,
   666307205, 773529912, 1294757372, 1396182291,
   1695183700, 1986661051, 2177026350, 2456956037,
   2730485921, 2820302411, 3259730800, 3345764771,
   3516065817, 3600352804, 4094571909, 275423344,
   430227734, 506948616, 659060556, 883997877,
   958139571, 1322822218, 1537002063, 1747873779,
   1955562222, 2024104815, 2227730452, 2361852424,
   2428436474, 2756734187, 3204031479, 3329325298]

/-- The SHA-256 initial hash value (FIPS 180-4 §5.3.3). -/
def shaH0 : List Nat :=
  [1779033703, 3144134277, 1013904242, 2773480762,
   1359893119, 2600822924, 528734635, 1541459225]

def bytesToWordsBE : List Nat → List Nat
  | b0 :: b1 :: b2 :: b3 :: rest =>
      (((b0 * 256 + b1) * 256 + b2) * 256 + b3) :: bytesToWordsBE rest
  | _ => []

def natToBytesBE : Nat → Nat → List Nat
  | _, 0 => []
  | n, k + 1 => natToBytesBE (n / 256) k ++ [n % 256]

def chunks64 : Nat → List Nat → List (List Nat)
  | 0, _ => []
  | _, [] => []
  | fuel + 1, l => l.take 64 :: chunks64 fuel (l.drop 64)

/-- SHA-256 padding: append `0x80`, zeros to 56 mod 64, then the bit length
as 8 big-endian bytes. -/
def shaPad (msg : List Nat) : List Nat :=
  let padZeros := (55 + 64 - (msg.length % 64)) % 64
  msg ++ [0x80] ++ List.replicate padZeros 0 ++ natToBytesBE (msg.length * 8) 8

/-- Extend the 16 block words to the 64-word message schedule. -/
def buildW : Nat → List Nat → List Nat
  | 0, w => w
  | fuel + 1, w =>
      let n := w.length
      let x := add32 (add32 (smallSigma1 (w.getD (n - 2) 0)) (w.getD (n - 7) 0))
        (add32 (smallSigma0 (w.getD (n - 15) 0)) (w.getD (n - 16) 0))
      buildW fuel (w ++ [x])

structure SHAState where
  a : Nat
  b : Nat
  c : Nat
  d : Nat
  e : Nat
  f : Nat
  g : Nat
  h : Nat

def shaRound (s : SHAState) (k w : Nat) : SHAState :=
  let t1 := add32 (add32 (add32 s.h (bigSigma1 s.e)) (add32 (chOf s.e s.f s.g) k)) w
  let t2 := add32 (bigSigma0 s.a) (majOf s.a s.b s.c)
  ⟨add32 t1 t2, s.a, s.b, s.c, add32 s.d t1, s.e, s.f, s.g⟩

def compressBlock (h : List Nat) (block : List Nat) : List Nat :=
  let w := buildW 48 (bytesToWordsBE block)
  let s0 : SHAState := ⟨h.getD 0 0, h.getD 1 0, h.getD 2 0, h.getD 3 0,
    h.getD 4 0, h.getD 5 0, h.getD 6 0, h.getD 7 0⟩
  let s := (shaK.zip w).foldl (fun st kw => shaRound st kw.1 kw.2) s0
  [add32 s.a (h.getD 0 0), add32 s.b (h.getD 1 0), add32 s.c (h.getD 2 0),
   add32 s.d (h.getD 3 0), add32 s.e (h.getD 4 0), add32 s.f (h.getD 5 0),
   add32 s.g (h.getD 6 0), add32 s.h (h.getD 7 0)]

/-- SHA-256 of a byte list (bytes are `Nat < 256`), returning 32 bytes. -/
def sha256 (msg : List Nat) : List Nat :=
  let padded := shaPad msg
  let blocks := chunks64 padded.length padded
  ((blocks.foldl compressBlock shaH0).map (fun w => natToBytesBE w 4)).flatten

/-- HMAC-SHA256 (RFC 2104), the function `hmac.new(key, body, hashlib.sha256)`
computes. -/
def hmacSha256 (key msg : List Nat) : List Nat :=
  let k0 := if 64 < key.length then sha256 key else key
  let kpad := k0 ++ List.replicate (64 - k0.length) 0
  let ipadKey := kpad.map (fun b => Nat.xor b 0x36)
  let opadKey := kpad.map (fun b => Nat.xor b 0x5c)
  sha256 (opadKey ++ sha256 (ipadKey ++ msg))

def b64c (n : Nat) : Char :=
  "ABCDEFGHIJKLMNOPQRSTUVWXYZabcdefghijklmnopqrstuvwxyz0123456789+/".toList.getD n 'A'

/-- RFC 4648 base64 with `=` padding, as `base64.b64encode` produces. -/
def base64Encode : List Nat → List Char
  | [] => []
  | [b0] => [b64c (b0 / 4), b64c ((b0 % 4) * 16), '=', '=']
  | [b0, b1] => [b64c (b0 / 4), b64c ((b0 % 4) * 16 + b1 / 16), b64c ((b1 % 16) * 4), '=']
  | b0 :: b1 :: b2 :: rest =>
      b64c (b0 / 4) :: b64c ((b0 % 4) * 16 + b1 / 16) ::
        b64c ((b1 % 16) * 4 + b2 / 64) :: b64c (b2 % 64) :: base64Encode rest

/-- UTF-8 encoding of one character, as `str.encode("utf-8")` does. -/
def utf8Char (c : Char) : List Nat :=
  let n := c.toNat
  if n < 0x80 then [n]
  else if n < 0x800 then [0xC0 + n / 64, 0x80 + n % 64]
  else if n < 0x10000 then
    [0xE0 + n / 4096, 0x80 + (n / 64) % 64, 0x80 + n % 64]
  else
    [0xF0 + n / 262144, 0x80 + (n / 4096) % 64, 0x80 + (n / 64) % 64, 0x80 + n % 64]

def utf8Bytes (s : String) : List Nat := (s.toList.map utf8Char).flatten

/-- `_compute_signature(channel_secret, body)` (`lineoa_frontend.py` 729-731):
base64 of the HMAC-SHA256 digest of the raw body keyed by the UTF-8 bytes of
the channel secret. -/
def compute_signature (channel_secret : String) (body : List Nat) : String :=
  String.mk (base64Encode (hmacSha256 (utf8Bytes channel_secret) body))

set_option maxRecDepth 1000000 in
/-- Known-answer tests for the crypto embedding: FIPS 180-4 "abc" vector and
the RFC-style HMAC vector
`HMAC("key", "The quick brown fox jumps over the lazy dog")`, through base64
exactly as Python would produce it. -/
theorem sha256_hmac_known_answers :
    sha256 (utf8Bytes "abc") =
      [0xba, 0x78, 0x16, 0xbf, 0x8f, 0x01, 0xcf, 0xea,
       0x41, 0x41, 0x40, 0xde, 0x5d, 0xae, 0x22, 0x23,
       0xb0, 0x03, 0x61, 0xa3, 0x96, 0x17, 0x7a, 0x9c,
       0xb4, 0x10, 0xff, 0x61, 0xf2, 0x00, 0x15, 0xad] ∧
    compute_signature "key"
        (utf8Bytes "The quick brown fox jumps over the lazy dog") =
      "97yD9DBThCSxMpjmqm+xQ+9NWaFJRhdZl0edvC0aPNg=" := by
  constructor
  · decide
  · decide

/-- Outcome of the webhook's credential/signature gate. -/
inductive SigCheck where
  | configError
  | invalidSignature
  | accepted
  deriving DecidableEq, Repr

/-- `line_webhook` lines 1238-1244: no channel secret → `abort(500)` (fail
closed); `hmac.compare_digest(signature, expected_sig)` false → `abort(400)`;
otherwise processing proceeds to the event loop. -/
def webhook_signature_gate (channel_secret signature : String)
    (body_bytes : List Nat) : SigCheck :=
  if channel_secret = "" then SigCheck.configError
  else if signature = compute_signature channel_secret body_bytes then
    SigCheck.accepted
  else SigCheck.invalidSignature

set_option maxRecDepth 1000000 in
/-- **C2.** The webhook accepts a request iff the `X-Line-Signature` header
equals the base64 HMAC-SHA256 of the raw body under the tenant's channel
secret; a missing secret is rejected as a configuration error before any event
is dispatched; a body signed with the right secret is accepted; and (concrete
instance of "fails under a different secret") a body signed under "key" is
rejected when the tenant's secret is "key2". -/
theorem claim_C2_signature_verification (channel_secret signature : String)
    (body : List Nat) :
    (webhook_signature_gate channel_secret signature body = SigCheck.accepted ↔
      (channel_secret ≠ "" ∧ signature = compute_signature channel_secret body)) ∧
    (webhook_signature_gate "" signature body = SigCheck.configError) ∧
    (webhook_signature_gate channel_secret (compute_signature channel_secret body)
        body =
      if channel_secret = "" then SigCheck.configError else SigCheck.accepted) ∧
    (webhook_signature_gate "key2"
        (compute_signature "key" (utf8Bytes "request body")) (utf8Bytes "request body") =
      SigCheck.invalidSignature) := by
  refine ⟨?_, ?_, ?_, ?_⟩
  · unfold webhook_signature_gate
    by_cases h1 : channel_secret = ""
    · simp [h1]
    · by_cases h2 : signature = compute_signature channel_secret body
      · simp [h1, h2]
      · simp [h1, h2]
  · unfold webhook_signature_gate
    simp
  · unfold webhook_signature_gate
    by_cases h1 : channel_secret = ""
    · simp [h1]
    · simp [h1]
  · unfold webhook_signature_gate
    have hsec : ("key2" : String) ≠ "" := by decide
    have hne : compute_signature "key" (utf8Bytes "request body") ≠
        compute_signature "key2" (utf8Bytes "request body") := by decide
    simp [hsec, hne]

/-! ## 4. Consumer slip-OCR flow — C4 and C10

`lineoa_frontend.py`: `_get_shop_pending_quote` (lines 297-326, TTL-gated
read of `shops/{shopId}/runtime/pending_payment`) and the consumer slip OCR
branch of `line_webhook` (lines 1488-1568).

Collaborator results appear as explicit inputs: `content` is whether the
media download returned bytes, `slip_gcs_uri` the stored media location, and
`ocr_read` the amount `_ocr_slip_amount` would extract *were it invoked*. -/

/-- `shops/{shopId}/runtime/pending_payment`, with `issued_at` already turned
into an age in minutes relative to `now` (`none` when the field is missing or
unparseable — the source then skips the TTL check and returns the data). -/
structure PendingQuoteDoc where
  expected_amount : Option ℚ
  currency : Option String
  issued_age_minutes : Option ℚ
  deriving DecidableEq, Repr

/-- `_get_shop_pending_quote` (lines 297-326): missing document → `None`;
an `issued_at` older than the TTL → `None`; otherwise the document. -/
def get_shop_pending_quote (doc : Option PendingQuoteDoc) (ttl_min : ℚ) :
    Option PendingQuoteDoc :=
  match doc with
  | none => none
  | some d =>
      match d.issued_age_minutes with
      | some age => if age > ttl_min then none else some d
      | none => some d

/-- Lines 1500-1504: the numeric expected amount (and its currency, defaulted
to THB) taken from an active pending quote. -/
def quoteExpected (doc : Option PendingQuoteDoc) (ttl_min : ℚ) :
    Option (ℚ × String) :=
  match get_shop_pending_quote doc ttl_min with
  | some d =>
      match d.expected_amount with
      | some a => some (a, d.currency.getD "THB")
      | none => none
  | none => none

/-- The `payment_intents` document written by the slip-OCR branch
(lines 1538-1553). -/
structure SlipIntentDoc where
  status : String
  customer_user_id : String
  currency : String
  amount : Option ℚ
  source : String
  slip_gcs_uri : Option String
  expected_amount : Option ℚ
  ocr_amount : Option ℚ
  match_status : String
  match_delta : Option ℚ
  deriving DecidableEq, Repr

/-- The owner notification pushed by `_push_slip_review_to_owners`
(lines 1556-1564): whether the amount is shown and, when shown, its value
(the source passes `expected_amt if show_amount else None`). -/
structure OwnerSlipNote where
  show_amount : Bool
  amount : Option ℚ
  currency : String
  deriving DecidableEq, Repr

structure SlipFlowResult where
  ran_ocr : Bool
  intent : Option SlipIntentDoc
  owner_note : Option OwnerSlipNote
  deriving DecidableEq, Repr

/-- The consumer slip branch of `line_webhook` (lines 1488-1568): fires for an
image message from a non-owner on the consumer context; OCR is gated on an
active quote with a numeric expected amount *and* downloaded bytes; the OCR
amount (when read) is compared against the expected amount within
`PAYMENT_OCR_MATCH_THRESHOLD`; a `payment_intents` document is always written
with status `"pending"`; owners are notified with the amount shown only on a
within-tolerance match. -/
def slip_ocr_flow (oa_ctx : String) (owner : Bool) (mtype : String)
    (message_id : Option String) (content : Bool)
    (slip_gcs_uri : Option String) (quote_doc : Option PendingQuoteDoc)
    (ttl_min : ℚ) (ocr_read : Option ℚ) (threshold : ℚ)
    (customer_user_id : String) : SlipFlowResult :=
  if oa_ctx = "consumer" ∧ owner = false ∧ mtype = "image" ∧ message_id.isSome then
    let expected := quoteExpected quote_doc ttl_min
    let expected_amt : Option ℚ := expected.map (fun p => p.1)
    let expected_cur : String := (expected.map (fun p => p.2)).getD "THB"
    let runs : Bool := expected_amt.isSome && content
    let ocr_amt : Option ℚ := if runs then ocr_read else none
    let verdict : String × Option ℚ × Bool :=
      match expected_amt, ocr_amt with
      | some e, some o =>
          if |o - e| ≤ threshold then ("match", some |o - e|, true)
          else ("mismatch", some |o - e|, false)
      | _, _ => ("unknown", none, false)
    let stored_amount : Option ℚ :=
      match ocr_amt with
      | some o => some o
      | none => expected_amt
    { ran_ocr := runs
      intent := some
        { status := "pending"
          customer_user_id := customer_user_id
          currency := expected_cur
          amount := stored_amount
          source := "slip_ocr"
          slip_gcs_uri := slip_gcs_uri
          expected_amount := expected_amt
          ocr_amount := ocr_amt
          match_status := verdict.1
          match_delta := verdict.2.1
          }
      owner_note := some
        { show_amount := verdict.2.2
          amount := if verdict.2.2 then expected_amt else none
          currency := expected_cur } }
  else { ran_ocr := false, intent := none, owner_note := none }

/-- **C4.** For an image from a non-owner on the consumer context:
(a) OCR runs only when an unexpired quote with a numeric amount is active;
(b) an OCR amount within the absolute tolerance of the expected amount yields
`match` and the owner note shows the amount; (c) an OCR amount outside the
tolerance yields `mismatch` and the owner note withholds the amount (verify
manually); (d) with no active quote OCR does not run, the image's stored
location is still recorded on the intent as evidence, and the owner note
withholds the amount (verify manually). -/
theorem claim_C4_ocr_gating_and_match (mid : String)
    (content : Bool) (slip_gcs_uri : Option String)
    (quote_doc : Option PendingQuoteDoc) (ttl_min : ℚ) (ocr_read : Option ℚ)
    (threshold : ℚ) (cuid : String) :
    (((slip_ocr_flow "consumer" false "image" (some mid) content slip_gcs_uri
          quote_doc ttl_min ocr_read threshold cuid).ran_ocr = true →
        (quoteExpected quote_doc ttl_min).isSome ∧ content = true)) ∧
    (∀ e cur o, quoteExpected quote_doc ttl_min = some (e, cur) →
      content = true → ocr_read = some o → |o - e| ≤ threshold →
      ∃ it note,
        (slip_ocr_flow "consumer" false "image" (some mid) content slip_gcs_uri
            quote_doc ttl_min ocr_read threshold cuid).intent = some it ∧
        (slip_ocr_flow "consumer" false "image" (some mid) content slip_gcs_uri
            quote_doc ttl_min ocr_read threshold cuid).owner_note = some note ∧
        it.match_status = "match" ∧ note.show_amount = true ∧
        note.amount = some e) ∧
    (∀ e cur o, quoteExpected quote_doc ttl_min = some (e, cur) →
      content = true → ocr_read = some o → threshold < |o - e| →
      ∃ it note,
        (slip_ocr_flow "consumer" false "image" (some mid) content slip_gcs_uri
            quote_doc ttl_min ocr_read threshold cuid).intent = some it ∧
        (slip_ocr_flow "consumer" false "image" (some mid) content slip_gcs_uri
            quote_doc ttl_min ocr_read threshold cuid).owner_note = some note ∧
        it.match_status = "mismatch" ∧ note.show_amount = false ∧
        note.amount = none) ∧
    (quoteExpected quote_doc ttl_min = none →
      ∃ it note,
        (slip_ocr_flow "consumer" false "image" (some mid) content slip_gcs_uri
            quote_doc ttl_min ocr_read threshold cuid).ran_ocr = false ∧
        (slip_ocr_flow "consumer" false "image" (some mid) content slip_gcs_uri
            quote_doc ttl_min ocr_read threshold cuid).intent = some it ∧
        (slip_ocr_flow "consumer" false "image" (some mid) content slip_gcs_uri
            quote_doc ttl_min ocr_read threshold cuid).owner_note = some note ∧
        it.ocr_amount = none ∧ it.slip_gcs_uri = slip_gcs_uri ∧
        note.show_amount = false ∧ note.amount = none) := by
  have hguard : ("consumer" : String) = "consumer" ∧ (false : Bool) = false ∧
      ("image" : String) = "image" ∧ (some mid).isSome := ⟨rfl, rfl, rfl, rfl⟩
  refine ⟨?_, ?_, ?_, ?_⟩
  · intro hran
    unfold slip_ocr_flow at hran
    rw [if_pos hguard] at hran
    simp only at hran
    rcases hq : quoteExpected quote_doc ttl_min with - | p
    · rw [hq] at hran
      simp at hran
    · rw [hq] at hran
      simp only [Option.map_some', Option.isSome_some, Bool.true_and] at hran
      exact ⟨rfl, hran⟩
  · intro e cur o hq hc ho hle
    unfold slip_ocr_flow
    rw [if_pos hguard]
    subst hc
    simp only [hq, ho, Option.map_some', Option.isSome_some, Bool.and_self,
      if_true, Option.getD_some]
    refine ⟨_, _, rfl, rfl, ?_, ?_, ?_⟩ <;> simp [hle]
  · intro e cur o hq hc ho hlt
    unfold slip_ocr_flow
    rw [if_pos hguard]
    subst hc
    have hnle : ¬(|o - e| ≤ threshold) := not_le.mpr hlt
    simp only [hq, ho, Option.map_some', Option.isSome_some, Bool.and_self,
      if_true, Option.getD_some]
    refine ⟨_, _, rfl, rfl, ?_, ?_, ?_⟩ <;> simp [hnle]
  · intro hq
    unfold slip_ocr_flow
    rw [if_pos hguard]
    simp only [hq, Option.map_none', Option.isSome_none, Bool.false_and,
      Bool.false_eq_true, if_false, Option.getD_none]
    exact ⟨_, _, True.intro, rfl, rfl, rfl, rfl, rfl, rfl⟩

/-- Witness for C4 at the spec's scenario: quote of 300 THB, threshold 1;
OCR reads 300 → `match`, owner shown 300 (second conjunct); OCR reads 850 →
`mismatch`, amount withheld (third conjunct, separate run); no quote → no
OCR, manual verification (fourth conjunct). -/
theorem claim_C4_ocr_gating_and_match_witness :
    (∃ it note,
      (slip_ocr_flow "consumer" false "image" (some "m1") true (some "gs")
          (some ⟨some 300, some "THB", some 0⟩) 180 (some 300) 1 "cust").intent =
        some it ∧
      (slip_ocr_flow "consumer" false "image" (some "m1") true (some "gs")
          (some ⟨some 300, some "THB", some 0⟩) 180 (some 300) 1 "cust").owner_note =
        some note ∧
      it.match_status = "match" ∧ note.show_amount = true ∧
      note.amount = some 300) ∧
    (∃ it note,
      (slip_ocr_flow "consumer" false "image" (some "m1") true (some "gs")
          (some ⟨some 300, some "THB", some 0⟩) 180 (some 850) 1 "cust").intent =
        some it ∧
      (slip_ocr_flow "consumer" false "image" (some "m1") true (some "gs")
          (some ⟨some 300, some "THB", some 0⟩) 180 (some 850) 1 "cust").owner_note =
        some note ∧
      it.match_status = "mismatch" ∧ note.show_amount = false ∧
      note.amount = none) := by
  constructor
  · exact (claim_C4_ocr_gating_and_match "m1" true (some "gs")
      (some ⟨some 300, some "THB", some 0⟩) 180 (some 300) 1 "cust").2.1
      300 "THB" 300 (by decide) rfl rfl (by norm_num)
  · exact (claim_C4_ocr_gating_and_match "m1" true (some "gs")
      (some ⟨some 300, some "THB", some 0⟩) 180 (some 850) 1 "cust").2.2.1
      300 "THB" 850 (by decide) rfl rfl (by norm_num)

/-- **C10.** (Implicit claim.)  The amount stored on an evidence-first
(slip-OCR) intent is the OCR-extracted amount when one was read; otherwise the
active quote's owner-declared expected amount; and `None` when neither exists
— so the recorded claimed amount can be the owner's expectation rather than
anything the customer submitted. -/
theorem claim_C10_intent_amount_fallback (mid : String)
    (content : Bool) (slip_gcs_uri : Option String)
    (quote_doc : Option PendingQuoteDoc) (ttl_min : ℚ) (ocr_read : Option ℚ)
    (threshold : ℚ) (cuid : String) :
    (∀ e cur o, quoteExpected quote_doc ttl_min = some (e, cur) →
      content = true → ocr_read = some o →
      ∃ it, (slip_ocr_flow "consumer" false "image" (some mid) content
          slip_gcs_uri quote_doc ttl_min ocr_read threshold cuid).intent =
            some it ∧ it.amount = some o) ∧
    (∀ e cur, quoteExpected quote_doc ttl_min = some (e, cur) →
      (content = false ∨ ocr_read = none) →
      ∃ it, (slip_ocr_flow "consumer" false "image" (some mid) content
          slip_gcs_uri quote_doc ttl_min ocr_read threshold cuid).intent =
            some it ∧ it.amount = some e) ∧
    (quoteExpected quote_doc ttl_min = none →
      ∃ it, (slip_ocr_flow "consumer" false "image" (some mid) content
          slip_gcs_uri quote_doc ttl_min ocr_read threshold cuid).intent =
            some it ∧ it.amount = none) := by
  have hguard : ("consumer" : String) = "consumer" ∧ (false : Bool) = false ∧
      ("image" : String) = "image" ∧ (some mid).isSome := ⟨rfl, rfl, rfl, rfl⟩
  refine ⟨?_, ?_, ?_⟩
  · intro e cur o hq hc ho
    unfold slip_ocr_flow
    rw [if_pos hguard]
    subst hc
    simp only [hq, ho, Option.map_some', Option.isSome_some, Bool.and_self, if_true]
    exact ⟨_, rfl, rfl⟩
  · intro e cur hq hor
    unfold slip_ocr_flow
    rw [if_pos hguard]
    rcases hor with hc | ho
    · subst hc
      simp only [hq, Option.map_some', Option.isSome_some, Bool.and_false,
        Bool.false_eq_true, if_false]
      exact ⟨_, rfl, rfl⟩
    · subst ho
      simp only [hq, Option.map_some', Option.isSome_some, Bool.true_and]
      cases content <;> simp only [if_true, if_false, Bool.false_eq_true] <;>
        exact ⟨_, rfl, rfl⟩
  · intro hq
    unfold slip_ocr_flow
    rw [if_pos hguard]
    simp only [hq, Option.map_none', Option.isSome_none, Bool.false_and,
      Bool.false_eq_true, if_false]
    exact ⟨_, rfl, rfl⟩

/-- Witness for C10: quote of 300 with no OCR reading → stored amount is the
owner's expected 300; no quote → stored amount is `none`. -/
theorem claim_C10_intent_amount_fallback_witness :
    (∃ it, (slip_ocr_flow "consumer" false "image" (some "m1") true (some "gs")
        (some ⟨some 300, some "THB", some 0⟩) 180 none 1 "cust").intent =
          some it ∧ it.amount = some 300) ∧
    (∃ it, (slip_ocr_flow "consumer" false "image" (some "m1") true none
        none 180 none 1 "cust").intent = some it ∧ it.amount = none) := by
  constructor
  · exact (claim_C10_intent_amount_fallback "m1" true (some "gs")
      (some ⟨some 300, some "THB", some 0⟩) 180 none 1 "cust").2.1
      300 "THB" (by decide) (Or.inr rfl)
  · exact (claim_C10_intent_amount_fallback "m1" true none
      none 180 none 1 "cust").2.2 rfl

/-! ## 5. Payment intents: owner confirm — C3

`dao.py`: `find_latest_pending_intent` (741-778),
`confirm_latest_pending_intent_to_payment` (781-802),
`record_manual_payment` (458-488), `confirm_payment` (491-498); webhook layer
`lineoa_frontend.py` lines 2023-2047 (fixed code `1010`).

`created_at` is minutes (`none` when the field is missing or unparseable —
such docs are skipped by the loops exactly as in the source); `since` is
`now - within_minutes`.  Firestore's random document id for the new payment is
passed in as `fresh_pid`. -/

/-- A `shops/{shopId}/payment_intents` document (the fields the confirm and
attach flows read). -/
structure IntentDoc where
  id : String
  customer_user_id : String
  amount : ℚ
  currency : String
  slip_gcs_uri : Option String
  message_id : Option String
  status : String
  created_at : Option ℚ
  payment_id : Option String
  deriving DecidableEq, Repr

/-- A `shops/{shopId}/payments` document. -/
structure PaymentDoc where
  id : String
  customer_user_id : String
  amount : ℚ
  currency : String
  slip_gcs_uri : Option String
  message_id : Option String
  status : String
  deriving DecidableEq, Repr

/-- The intents and payments of one shop. -/
structure ShopPayState where
  intents : List IntentDoc
  payments : List PaymentDoc
  deriving DecidableEq, Repr

/-- `dao.find_latest_pending_intent` (741-778): scan the fetched intents,
keeping the most recent (`cat_dt > latest_ts`) doc whose status is
`"awaiting_owner"`, whose `created_at` parses, and which is within the
window (`cat_dt ≥ since`). -/
def find_latest_pending_intent (docs : List IntentDoc) (since : ℚ) :
    Option String :=
  (docs.foldl
    (fun acc d =>
      if d.status ≠ "awaiting_owner" then acc
      else
        match d.created_at with
        | none => acc
        | some cat =>
            if cat < since then acc
            else
              match acc with
              | none => some (d.id, cat)
              | some pr => if cat > pr.2 then some (d.id, cat) else acc)
    none).map (fun pr => pr.1)

/-- `dao.confirm_latest_pending_intent_to_payment` (781-802): locate the
latest pending intent; if none, return `None` untouched; otherwise create a
payment from the intent (`record_manual_payment`, status `"pending_review"`),
immediately `confirm_payment` it (status `"confirmed"`), and mark the intent
`"confirmed"` with the payment id. -/
def confirm_latest_pending_intent_to_payment (st : ShopPayState) (since : ℚ)
    (fresh_pid : String) : Option String × ShopPayState :=
  match find_latest_pending_intent st.intents since with
  | none => (none, st)
  | some iid =>
      match st.intents.find? (fun d => d.id == iid) with
      | none => (none, st)
      | some i =>
          let pay : PaymentDoc :=
            { id := fresh_pid
              customer_user_id := i.customer_user_id
              amount := i.amount
              currency := i.currency
              slip_gcs_uri := i.slip_gcs_uri
              message_id := i.message_id
              status := "confirmed" }
          let intents' := st.intents.map (fun d =>
            if d.id == iid then
              { d with status := "confirmed", payment_id := some fresh_pid }
            else d)
          (some fresh_pid, { intents := intents', payments := pay :: st.payments })

/-- An outbound push message (receiver and which notification). -/
structure Push where
  dest : String
  kind : String
  deriving DecidableEq, Repr

/-- The owner `1010` branch of `line_webhook` (2023-2047): convert the latest
pending intent; when a payment id comes back, ack the owner and push a
confirmation to the payment's customer; when none comes back, do nothing
further (no error). -/
def owner_confirm_1010 (st : ShopPayState) (since : ℚ) (fresh_pid : String)
    (owner_user_id : String) : ShopPayState × List Push :=
  let r := confirm_latest_pending_intent_to_payment st since fresh_pid
  match r.1 with
  | none => (r.2, [])
  | some pid =>
      match r.2.payments.find? (fun p => p.id == pid) with
      | some p =>
          (r.2, [Push.mk owner_user_id "owner_ack",
                 Push.mk p.customer_user_id "payment_confirmed"])
      | none => (r.2, [Push.mk owner_user_id "owner_ack"])

/-- A text-path intent (created by `dao.create_payment_intent`, status
`"awaiting_owner"`), used below. -/
def awaitIntent : IntentDoc :=
  { id := "i1", customer_user_id := "cust", amount := 300, currency := "THB",
    slip_gcs_uri := some "gs://slip", message_id := some "m1",
    status := "awaiting_owner", created_at := some 100, payment_id := none }

/-- The same document as written by the slip-OCR branch of `line_webhook`
(line 1539): status `"pending"`. -/
def slipOcrIntent : IntentDoc :=
  { id := "i1", customer_user_id := "cust", amount := 300, currency := "THB",
    slip_gcs_uri := some "gs://slip", message_id := some "m1",
    status := "pending", created_at := some 100, payment_id := none }

/-- **C3.** Bug evidence.  For a text-path (`"awaiting_owner"`) intent the
owner's `1010` does convert it into a confirmed payment, pushes the
confirmation to that intent's customer, and a second `1010` is a state-
preserving no-op — but the slip-OCR branch writes its intents with status
`"pending"` (line 1539, despite the comment "so existing 1010/0011 flow
works"), and `find_latest_pending_intent` filters on `"awaiting_owner"`,
so with exactly one freshly created slip-OCR intent in the window the
owner's `1010` is a no-op: no payment is created, no push is sent, and the
intent stays unconfirmed, contradicting the claim that confirm converts the
most recent pending intent. -/
theorem claim_C3_confirm_behaviour :
    ((confirm_latest_pending_intent_to_payment ⟨[slipOcrIntent], []⟩ 0 "p1").1
        = none ∧
      (confirm_latest_pending_intent_to_payment ⟨[slipOcrIntent], []⟩ 0 "p1").2
        = ⟨[slipOcrIntent], []⟩ ∧
      (owner_confirm_1010 ⟨[slipOcrIntent], []⟩ 0 "p1" "owner").2 = []) ∧
    ((confirm_latest_pending_intent_to_payment ⟨[awaitIntent], []⟩ 0 "p1").1
        = some "p1" ∧
      (confirm_latest_pending_intent_to_payment ⟨[awaitIntent], []⟩ 0 "p1").2.payments
        = [⟨"p1", "cust", 300, "THB", some "gs://slip", some "m1", "confirmed"⟩] ∧
      (owner_confirm_1010 ⟨[awaitIntent], []⟩ 0 "p1" "owner").2
        = [Push.mk "owner" "owner_ack", Push.mk "cust" "payment_confirmed"] ∧
      (confirm_latest_pending_intent_to_payment
          (confirm_latest_pending_intent_to_payment ⟨[awaitIntent], []⟩ 0 "p1").2
          0 "p2").1 = none ∧
      (confirm_latest_pending_intent_to_payment
          (confirm_latest_pending_intent_to_payment ⟨[awaitIntent], []⟩ 0 "p1").2
          0 "p2").2 =
        (confirm_latest_pending_intent_to_payment ⟨[awaitIntent], []⟩ 0 "p1").2) := by
  decide

/-- General no-op safety behind C3: whenever no pending intent is found in
the window, both the conversion and the webhook `1010` branch leave the
state untouched and push nothing. -/
theorem confirm_no_pending_is_noop (st : ShopPayState) (since : ℚ)
    (fresh_pid owner_uid : String)
    (h : find_latest_pending_intent st.intents since = none) :
    confirm_latest_pending_intent_to_payment st since fresh_pid = (none, st) ∧
      owner_confirm_1010 st since fresh_pid owner_uid = (st, []) := by
  unfold owner_confirm_1010 confirm_latest_pending_intent_to_payment
  rw [h]
  exact ⟨rfl, rfl⟩

theorem confirm_no_pending_is_noop_witness :
    find_latest_pending_intent ([] : List IntentDoc) 0 = none ∧
      confirm_latest_pending_intent_to_payment ⟨[], []⟩ 0 "p1" = (none, ⟨[], []⟩) ∧
      owner_confirm_1010 ⟨[], []⟩ 0 "p1" "owner" = (⟨[], []⟩, []) := by
  have h := confirm_no_pending_is_noop ⟨[], []⟩ 0 "p1" "owner" (by decide)
  exact ⟨by decide, h.1, h.2⟩

/-! ## 6. Evidence attachment — C7

`dao.attach_recent_intent_by_user` (815-910): given new slip evidence, pick
the most recent awaiting-owner intent of the customer within the window that
has no evidence yet (Python breaks at the first such doc in
created-at-descending query order); failing that, remember the most recent
confirmed intent with a payment id and no evidence, and backfill its payment
document as well (`attach_payment_slip`, best effort).  The webhook calls it
for inbound customer images (`lineoa_frontend.py` 2164-2178,
`within_minutes=60`).

The query `where(customer_user_id ==).order_by(created_at desc).limit(50)`
becomes `filter` + `take 50` over the modelled collection; theorems that
need "most recent = first" carry the descending-order hypothesis
(`List.Pairwise createdGE`). -/

/-- Query-order invariant: created-at descending (docs the query returns are
ordered newest first; docs without the field do not occur in an
`order_by` result, and are skipped by the loop anyway). -/
def createdGE (a b : IntentDoc) : Prop :=
  b.created_at.getD 0 ≤ a.created_at.getD 0

instance (a b : IntentDoc) : Decidable (createdGE a b) := by
  unfold createdGE
  infer_instance

/-- `update` dict applied to the target intent (890-895): fields are written
only when the new value is truthy. -/
def evUpdateIntent (slip msgid : Option String) (d : IntentDoc) : IntentDoc :=
  { d with
    slip_gcs_uri := match slip with | some u => some u | none => d.slip_gcs_uri
    message_id := match msgid with | some m => some m | none => d.message_id }

/-- `attach_payment_slip` (575-594) applied to the backfilled payment. -/
def evUpdatePayment (slip msgid : Option String) (p : PaymentDoc) : PaymentDoc :=
  { p with
    slip_gcs_uri := match slip with | some u => some u | none => p.slip_gcs_uri
    message_id := match msgid with | some m => some m | none => p.message_id }

/-- The candidate-selection loop (851-884), returning
`(target_id, target_ts, target_was_confirmed, target_payment_id)`:
skip docs outside the window or with evidence; break at the first
awaiting-owner candidate; otherwise keep the strictly most recent confirmed
candidate that has a payment id. -/
def attachPick (since : ℚ) :
    List IntentDoc → Option (String × ℚ × Bool × Option String) →
      Option (String × ℚ × Bool × Option String)
  | [], acc => acc
  | d :: rest, acc =>
      match d.created_at with
      | none => attachPick since rest acc
      | some cat =>
          if cat < since then attachPick since rest acc
          else if d.slip_gcs_uri.isSome || d.message_id.isSome then
            attachPick since rest acc
          else if d.status = "awaiting_owner" then some (d.id, cat, false, none)
          else if d.status = "confirmed" ∧ d.payment_id.isSome then
            match acc with
            | none => attachPick since rest (some (d.id, cat, true, d.payment_id))
            | some pr =>
                if cat > pr.2.1 then
                  attachPick since rest (some (d.id, cat, true, d.payment_id))
                else attachPick since rest acc
          else attachPick since rest acc

/-- The query result the loop scans: the customer's intents, newest first,
capped at 50 (`where(customer_user_id ==).order_by(created_at desc).limit(50)`,
lines 835-844). -/
def attachDocs (st : ShopPayState) (customer_user_id : String) :
    List IntentDoc :=
  (st.intents.filter (fun d => d.customer_user_id == customer_user_id)).take 50

/-- `dao.attach_recent_intent_by_user` (815-910): no evidence arguments at
all → `None`; otherwise run the selection loop over the customer's recent
intents, merge the evidence onto the target intent, and — when the target
was an already-confirmed intent — backfill its payment document too. -/
def attach_recent_intent_by_user (st : ShopPayState)
    (customer_user_id : String) (slip_gcs_uri message_id : Option String)
    (since : ℚ) : Option String × ShopPayState :=
  if slip_gcs_uri = none ∧ message_id = none then (none, st)
  else
    match attachPick since (attachDocs st customer_user_id) none with
    | none => (none, st)
    | some pr =>
        let intents' := st.intents.map (fun d =>
          if d.id == pr.1 then evUpdateIntent slip_gcs_uri message_id d else d)
        let payments' :=
          if pr.2.2.1 then
            match pr.2.2.2 with
            | some pid => st.payments.map (fun p =>
                if p.id == pid then evUpdatePayment slip_gcs_uri message_id p
                else p)
            | none => st.payments
          else st.payments
        (some pr.1, { intents := intents', payments := payments' })

/-- An intent is inside the attachment window. -/
def inWindowDoc (since : ℚ) (d : IntentDoc) : Prop :=
  ∃ c, d.created_at = some c ∧ since ≤ c

instance (since : ℚ) (d : IntentDoc) : Decidable (inWindowDoc since d) :=
  match h : d.created_at with
  | none => isFalse (by
      rintro ⟨c, hc, -⟩
      rw [h] at hc
      cases hc)
  | some c =>
      if hle : since ≤ c then isTrue ⟨c, h, hle⟩
      else isFalse (by
        rintro ⟨c2, hc2, hle2⟩
        rw [h, Option.some_inj] at hc2
        exact hle (hc2 ▸ hle2))

/-- An intent with no evidence attached yet. -/
def noEvidence (d : IntentDoc) : Prop :=
  d.slip_gcs_uri = none ∧ d.message_id = none

instance (d : IntentDoc) : Decidable (noEvidence d) := by
  unfold noEvidence
  infer_instance

/-- An awaiting-owner attachment candidate. -/
def awaitCand (since : ℚ) (d : IntentDoc) : Prop :=
  inWindowDoc since d ∧ noEvidence d ∧ d.status = "awaiting_owner"

instance (since : ℚ) (d : IntentDoc) : Decidable (awaitCand since d) := by
  unfold awaitCand
  infer_instance

/-- A confirmed backfill candidate (already has a payment id, still no
evidence). -/
def confCand (since : ℚ) (d : IntentDoc) : Prop :=
  inWindowDoc since d ∧ noEvidence d ∧ d.status = "confirmed" ∧
    d.payment_id.isSome

instance (since : ℚ) (d : IntentDoc) : Decidable (confCand since d) := by
  unfold confCand
  infer_instance


/-- If a dominating accumulator is already chosen and no awaiting candidate
remains, the loop keeps it. -/
theorem attachPick_eq_acc_of_dominated (since : ℚ) (x : String) (ts : ℚ)
    (b : Bool) (pp : Option String) (rest : List IntentDoc)
    (hnoawait : ∀ d ∈ rest, ¬awaitCand since d)
    (hdom : ∀ d ∈ rest, ∀ c, d.created_at = some c → c ≤ ts) :
    attachPick since rest (some (x, ts, b, pp)) = some (x, ts, b, pp) := by
  induction rest with
  | nil => rfl
  | cons d rest ih =>
      have hnd := hnoawait d (List.mem_cons_self d rest)
      have hdd := hdom d (List.mem_cons_self d rest)
      have hnoawait2 : ∀ e ∈ rest, ¬awaitCand since e :=
        fun e he => hnoawait e (List.mem_cons_of_mem d he)
      have hdom2 : ∀ e ∈ rest, ∀ c, e.created_at = some c → c ≤ ts :=
        fun e he => hdom e (List.mem_cons_of_mem d he)
      cases hcr : d.created_at with
      | none =>
          simp only [attachPick, hcr]
          exact ih hnoawait2 hdom2
      | some cat =>
          by_cases hlt : cat < since
          · simp only [attachPick, hcr, if_pos hlt]
            exact ih hnoawait2 hdom2
          · by_cases hev : (d.slip_gcs_uri.isSome || d.message_id.isSome) = true
            · simp only [attachPick, hcr, if_neg hlt, if_pos hev]
              exact ih hnoawait2 hdom2
            · have hevn : d.slip_gcs_uri = none ∧ d.message_id = none := by
                constructor
                · cases h1 : d.slip_gcs_uri with
                  | none => rfl
                  | some u => exact absurd (by rw [h1]; simp) hev
                · cases h1 : d.message_id with
                  | none => rfl
                  | some u => exact absurd (by rw [h1]; simp) hev
              have hstat : ¬(d.status = "awaiting_owner") := by
                intro hs
                exact hnd ⟨⟨cat, hcr, le_of_not_lt hlt⟩, hevn, hs⟩
              by_cases hconf : d.status = "confirmed" ∧ d.payment_id.isSome
              · have hle : cat ≤ ts := hdd cat hcr
                have hngt : ¬(cat > ts) := not_lt.mpr hle
                simp only [attachPick, hcr, if_neg hlt, if_neg hev,
                  if_neg hstat, if_pos hconf, if_neg hngt]
                exact ih hnoawait2 hdom2
              · simp only [attachPick, hcr, if_neg hlt, if_neg hev,
                  if_neg hstat, if_neg hconf]
                exact ih hnoawait2 hdom2


/-- The loop breaks at the first awaiting-owner candidate in query order. -/
theorem attachPick_first_awaiting (since : ℚ) (docs : List IntentDoc)
    (d0 : IntentDoc)
    (hfind : docs.find? (fun d => decide (awaitCand since d)) = some d0) :
    ∀ acc, ∃ cat, d0.created_at = some cat ∧
      attachPick since docs acc = some (d0.id, cat, false, none) := by
  induction docs with
  | nil => simp at hfind
  | cons d rest ih =>
      by_cases hcand : awaitCand since d
      · rw [List.find?_cons] at hfind
        simp only [decide_eq_true hcand, Option.some_inj] at hfind
        subst hfind
        obtain ⟨⟨cat, hcr, hle⟩, ⟨hs, hm⟩, hstat⟩ := hcand
        intro acc
        refine ⟨cat, hcr, ?_⟩
        have hev : ¬((d.slip_gcs_uri.isSome || d.message_id.isSome) = true) := by
          rw [hs, hm]
          simp
        simp only [attachPick, hcr, if_neg (not_lt.mpr hle), if_neg hev,
          if_pos hstat]
      · rw [List.find?_cons] at hfind
        simp only [decide_eq_false hcand] at hfind
        intro acc
        cases hcr : d.created_at with
        | none =>
            simp only [attachPick, hcr]
            exact ih hfind acc
        | some cat =>
            by_cases hlt : cat < since
            · simp only [attachPick, hcr, if_pos hlt]
              exact ih hfind acc
            · by_cases hev : (d.slip_gcs_uri.isSome || d.message_id.isSome) = true
              · simp only [attachPick, hcr, if_neg hlt, if_pos hev]
                exact ih hfind acc
              · have hevn : d.slip_gcs_uri = none ∧ d.message_id = none := by
                  constructor
                  · cases h1 : d.slip_gcs_uri with
                    | none => rfl
                    | some u => exact absurd (by rw [h1]; simp) hev
                  · cases h1 : d.message_id with
                    | none => rfl
                    | some u => exact absurd (by rw [h1]; simp) hev
                have hstat : ¬(d.status = "awaiting_owner") := by
                  intro hs
                  exact hcand ⟨⟨cat, hcr, le_of_not_lt hlt⟩, hevn, hs⟩
                by_cases hconf : d.status = "confirmed" ∧ d.payment_id.isSome
                · cases acc with
                  | none =>
                      simp only [attachPick, hcr, if_neg hlt, if_neg hev,
                        if_neg hstat, if_pos hconf]
                      exact ih hfind _
                  | some pr =>
                      by_cases hgt : cat > pr.2.1
                      · simp only [attachPick, hcr, if_neg hlt, if_neg hev,
                          if_neg hstat, if_pos hconf, if_pos hgt]
                        exact ih hfind _
                      · simp only [attachPick, hcr, if_neg hlt, if_neg hev,
                          if_neg hstat, if_pos hconf, if_neg hgt]
                        exact ih hfind _
                · simp only [attachPick, hcr, if_neg hlt, if_neg hev,
                    if_neg hstat, if_neg hconf]
                  exact ih hfind acc

/-- Any target the loop returns (beyond its initial accumulator) is an
in-window, evidence-less document of the scanned list. -/
theorem attachPick_target_sound (since : ℚ) (docs : List IntentDoc) :
    ∀ acc pr, attachPick since docs acc = some pr →
      acc = some pr ∨
        ∃ d ∈ docs, d.id = pr.1 ∧ d.created_at = some pr.2.1 ∧
          since ≤ pr.2.1 ∧ noEvidence d := by
  induction docs with
  | nil =>
      intro acc pr h
      exact Or.inl h
  | cons d rest ih =>
      intro acc pr h
      have push : ∀ (acc2 : Option (String × ℚ × Bool × Option String)),
          attachPick since rest acc2 = some pr →
          (acc2 = some pr ∨
            ∃ e ∈ d :: rest, e.id = pr.1 ∧ e.created_at = some pr.2.1 ∧
              since ≤ pr.2.1 ∧ noEvidence e) := by
        intro acc2 h2
        rcases ih acc2 pr h2 with h3 | ⟨e, he, hrest⟩
        · exact Or.inl h3
        · exact Or.inr ⟨e, List.mem_cons_of_mem d he, hrest⟩
      cases hcr : d.created_at with
      | none =>
          simp only [attachPick, hcr] at h
          exact push acc h
      | some cat =>
          by_cases hlt : cat < since
          · simp only [attachPick, hcr, if_pos hlt] at h
            exact push acc h
          · by_cases hev : (d.slip_gcs_uri.isSome || d.message_id.isSome) = true
            · simp only [attachPick, hcr, if_neg hlt, if_pos hev] at h
              exact push acc h
            · have hevn : noEvidence d := by
                constructor
                · cases h1 : d.slip_gcs_uri with
                  | none => rfl
                  | some u => exact absurd (by rw [h1]; simp) hev
                · cases h1 : d.message_id with
                  | none => rfl
                  | some u => exact absurd (by rw [h1]; simp) hev
              by_cases hstat : d.status = "awaiting_owner"
              · simp only [attachPick, hcr, if_neg hlt, if_neg hev,
                  if_pos hstat, Option.some_inj] at h
                refine Or.inr ⟨d, List.mem_cons_self d rest, ?_⟩
                rw [← h]
                exact ⟨rfl, hcr, le_of_not_lt hlt, hevn⟩
              · by_cases hconf : d.status = "confirmed" ∧ d.payment_id.isSome
                · have newgood : ∀ h2 : attachPick since rest
                      (some (d.id, cat, true, d.payment_id)) = some pr,
                      acc = some pr ∨
                        ∃ e ∈ d :: rest, e.id = pr.1 ∧
                          e.created_at = some pr.2.1 ∧ since ≤ pr.2.1 ∧
                          noEvidence e := by
                    intro h2
                    rcases ih _ pr h2 with h3 | ⟨e, he, hrest⟩
                    · refine Or.inr ⟨d, List.mem_cons_self d rest, ?_⟩
                      rw [Option.some_inj] at h3
                      rw [← h3]
                      exact ⟨rfl, hcr, le_of_not_lt hlt, hevn⟩
                    · exact Or.inr ⟨e, List.mem_cons_of_mem d he, hrest⟩
                  cases acc with
                  | none =>
                      simp only [attachPick, hcr, if_neg hlt, if_neg hev,
                        if_neg hstat, if_pos hconf] at h
                      exact newgood h
                  | some pr0 =>
                      by_cases hgt : cat > pr0.2.1
                      · simp only [attachPick, hcr, if_neg hlt, if_neg hev,
                          if_neg hstat, if_pos hconf, if_pos hgt] at h
                        exact newgood h
                      · simp only [attachPick, hcr, if_neg hlt, if_neg hev,
                          if_neg hstat, if_pos hconf, if_neg hgt] at h
                        exact push _ h
                · simp only [attachPick, hcr, if_neg hlt, if_neg hev,
                    if_neg hstat, if_neg hconf] at h
                  exact push acc h

/-- With no awaiting candidate in a descending-ordered list, the loop returns
the first (= most recent) confirmed backfill candidate, or nothing. -/
theorem attachPick_no_awaiting (since : ℚ) (docs : List IntentDoc)
    (hsorted : docs.Pairwise createdGE)
    (hnoawait : ∀ d ∈ docs, ¬awaitCand since d) :
    (∀ d0, docs.find? (fun d => decide (confCand since d)) = some d0 →
      ∃ cat, d0.created_at = some cat ∧
        attachPick since docs none = some (d0.id, cat, true, d0.payment_id)) ∧
    (docs.find? (fun d => decide (confCand since d)) = none →
      attachPick since docs none = none) := by
  induction docs with
  | nil =>
      exact ⟨fun d0 h => by simp at h, fun _ => rfl⟩
  | cons d rest ih =>
      rw [List.pairwise_cons] at hsorted
      have hnd := hnoawait d (List.mem_cons_self d rest)
      have hnoawait2 : ∀ e ∈ rest, ¬awaitCand since e :=
        fun e he => hnoawait e (List.mem_cons_of_mem d he)
      have ih2 := ih hsorted.2 hnoawait2
      by_cases hcand : confCand since d
      · obtain ⟨⟨cat, hcr, hle⟩, ⟨hs, hm⟩, hstat, hpay⟩ := hcand
        have hev : ¬((d.slip_gcs_uri.isSome || d.message_id.isSome) = true) := by
          rw [hs, hm]
          simp
        have hnawait : ¬(d.status = "awaiting_owner") := by
          rw [hstat]
          decide
        have hcpos : d.status = "confirmed" ∧ d.payment_id.isSome :=
          ⟨hstat, hpay⟩
        have hrun : attachPick since (d :: rest) none =
            attachPick since rest (some (d.id, cat, true, d.payment_id)) := by
          simp only [attachPick, hcr]
          rw [if_neg (not_lt.mpr hle), if_neg hev, if_neg hnawait,
            if_pos hcpos]
        have hdom : ∀ e ∈ rest, ∀ c, e.created_at = some c → c ≤ cat := by
          intro e he c hc
          have hge := hsorted.1 e he
          unfold createdGE at hge
          rw [hc, hcr] at hge
          exact hge
        have hkeep := attachPick_eq_acc_of_dominated since d.id cat true
          d.payment_id rest hnoawait2 hdom
        have hccand : confCand since d := ⟨⟨cat, hcr, hle⟩, ⟨hs, hm⟩, hstat, hpay⟩
        constructor
        · intro d0 hfind
          rw [List.find?_cons] at hfind
          simp only [decide_eq_true hccand, Option.some_inj] at hfind
          subst hfind
          exact ⟨cat, hcr, by rw [hrun, hkeep]⟩
        · intro hfind
          rw [List.find?_cons] at hfind
          simp only [decide_eq_true hccand] at hfind
          cases hfind
      · have hfind_skip : (d :: rest).find?
            (fun e => decide (confCand since e)) =
            rest.find? (fun e => decide (confCand since e)) := by
          rw [List.find?_cons]
          simp only [decide_eq_false hcand]
        have hrec : attachPick since (d :: rest) none =
            attachPick since rest none := by
          cases hcr : d.created_at with
          | none => simp only [attachPick, hcr]
          | some cat =>
              by_cases hlt : cat < since
              · simp only [attachPick, hcr, if_pos hlt]
              · by_cases hev : (d.slip_gcs_uri.isSome ||
                    d.message_id.isSome) = true
                · simp only [attachPick, hcr, if_neg hlt, if_pos hev]
                · have hevn : noEvidence d := by
                    constructor
                    · cases h1 : d.slip_gcs_uri with
                      | none => rfl
                      | some u => exact absurd (by rw [h1]; simp) hev
                    · cases h1 : d.message_id with
                      | none => rfl
                      | some u => exact absurd (by rw [h1]; simp) hev
                  have hstat : ¬(d.status = "awaiting_owner") := by
                    intro hs
                    exact hnd ⟨⟨cat, hcr, le_of_not_lt hlt⟩, hevn, hs⟩
                  have hconf : ¬(d.status = "confirmed" ∧
                      d.payment_id.isSome) := by
                    rintro ⟨h1, h2⟩
                    exact hcand ⟨⟨cat, hcr, le_of_not_lt hlt⟩, hevn, h1, h2⟩
                  simp only [attachPick, hcr, if_neg hlt, if_neg hev,
                    if_neg hstat, if_neg hconf]
        rw [hfind_skip, hrec]
        exact ih2

/-- In a created-at-descending list, the first document satisfying a
predicate has the maximal `created_at` among all documents satisfying it. -/
theorem find_first_is_max (P : IntentDoc → Prop) [DecidablePred P]
    (docs : List IntentDoc) (hsorted : docs.Pairwise createdGE)
    (d0 : IntentDoc)
    (hfind : docs.find? (fun d => decide (P d)) = some d0) :
    ∀ d ∈ docs, P d → ∀ c c0, d.created_at = some c →
      d0.created_at = some c0 → c ≤ c0 := by
  induction docs with
  | nil => simp at hfind
  | cons a rest ih =>
      rw [List.pairwise_cons] at hsorted
      by_cases hp : P a
      · rw [List.find?_cons] at hfind
        simp only [decide_eq_true hp, Option.some_inj] at hfind
        subst hfind
        intro d hd hPd c c0 hc hc0
        rcases List.mem_cons.mp hd with rfl | hd2
        · rw [hc, Option.some_inj] at hc0
          exact le_of_eq hc0
        · have hge := hsorted.1 d hd2
          unfold createdGE at hge
          rw [hc, hc0] at hge
          exact hge
      · rw [List.find?_cons] at hfind
        simp only [decide_eq_false hp] at hfind
        intro d hd hPd c c0 hc hc0
        rcases List.mem_cons.mp hd with rfl | hd2
        · exact absurd hPd hp
        · exact ih hsorted.2 hfind d hd2 hPd c c0 hc hc0


/-- **C7.** Evidence attachment.  Assuming the query result is in
created-at-descending order: (1) any target the attachment picks is an
in-window, evidence-less intent of the customer's recent documents — evidence
is never auto-attached to an intent older than the window; (2) when an
awaiting-owner candidate exists, the attachment goes to the first (= most
recent) such intent, its evidence fields are merged, payments are untouched,
and every other awaiting candidate is no newer; (3) when none is pending but
a confirmed intent with a payment id and no evidence is in range, the most
recent such intent is backfilled together with its payment record. -/
theorem claim_C7_attach_matching (st : ShopPayState) (uid : String)
    (slip msgid : Option String) (since : ℚ)
    (hev : ¬(slip = none ∧ msgid = none))
    (hsorted : (attachDocs st uid).Pairwise createdGE) :
    (∀ tid, (attach_recent_intent_by_user st uid slip msgid since).1 =
        some tid →
      ∃ d ∈ attachDocs st uid, d.id = tid ∧ inWindowDoc since d ∧
        noEvidence d) ∧
    (∀ d0, (attachDocs st uid).find?
        (fun d => decide (awaitCand since d)) = some d0 →
      (attach_recent_intent_by_user st uid slip msgid since).1 = some d0.id ∧
      (attach_recent_intent_by_user st uid slip msgid since).2.intents =
        st.intents.map (fun d =>
          if d.id == d0.id then evUpdateIntent slip msgid d else d) ∧
      (attach_recent_intent_by_user st uid slip msgid since).2.payments =
        st.payments ∧
      (∀ d ∈ attachDocs st uid, awaitCand since d → ∀ c c0,
        d.created_at = some c → d0.created_at = some c0 → c ≤ c0)) ∧
    ((attachDocs st uid).find? (fun d => decide (awaitCand since d)) = none →
      ∀ d0, (attachDocs st uid).find?
          (fun d => decide (confCand since d)) = some d0 →
        (attach_recent_intent_by_user st uid slip msgid since).1 =
          some d0.id ∧
        (attach_recent_intent_by_user st uid slip msgid since).2.intents =
          st.intents.map (fun d =>
            if d.id == d0.id then evUpdateIntent slip msgid d else d) ∧
        (∀ pid, d0.payment_id = some pid →
          (attach_recent_intent_by_user st uid slip msgid since).2.payments =
            st.payments.map (fun p =>
              if p.id == pid then evUpdatePayment slip msgid p else p)) ∧
        (∀ d ∈ attachDocs st uid, confCand since d → ∀ c c0,
          d.created_at = some c → d0.created_at = some c0 → c ≤ c0)) := by
  refine ⟨?_, ?_, ?_⟩
  · intro tid htid
    unfold attach_recent_intent_by_user at htid
    rw [if_neg hev] at htid
    cases hpick : attachPick since (attachDocs st uid) none with
    | none =>
        rw [hpick] at htid
        simp at htid
    | some pr =>
        rw [hpick] at htid
        simp only [Option.some_inj] at htid
        rcases attachPick_target_sound since (attachDocs st uid) none pr hpick
          with h | ⟨d, hd, hid, hcr, hle, hnev⟩
        · cases h
        · exact ⟨d, hd, by rw [hid, htid], ⟨pr.2.1, hcr, hle⟩, hnev⟩
  · intro d0 hfind
    obtain ⟨cat, hcr, hpick⟩ :=
      attachPick_first_awaiting since (attachDocs st uid) d0 hfind none
    have hmax := find_first_is_max (awaitCand since) (attachDocs st uid)
      hsorted d0 hfind
    unfold attach_recent_intent_by_user
    rw [if_neg hev]
    simp only [hpick]
    exact ⟨by simp, by simp, by simp, hmax⟩
  · intro hnone d0 hfind
    have hnoawait : ∀ d ∈ attachDocs st uid, ¬awaitCand since d := by
      intro d hd hP
      exact (List.find?_eq_none.mp hnone d hd) (decide_eq_true hP)
    obtain ⟨cat, hcr, hpick⟩ :=
      (attachPick_no_awaiting since (attachDocs st uid) hsorted hnoawait).1
        d0 hfind
    have hmax := find_first_is_max (confCand since) (attachDocs st uid)
      hsorted d0 hfind
    unfold attach_recent_intent_by_user
    rw [if_neg hev]
    simp only [hpick]
    refine ⟨by simp, by simp, ?_, hmax⟩
    intro pid hpid
    simp [hpid]

/-- Witness for C7: a customer with (newest first) an awaiting intent that
already has evidence (skipped), an evidence-less awaiting intent "i2" (the
target of conjunct 2), a confirmed intent "i3" with payment "p9", and an
out-of-window awaiting intent "i4"; and a second state with only the
confirmed intent, exercising the backfill conjunct. -/
theorem claim_C7_attach_matching_witness :
    ((attach_recent_intent_by_user
        ⟨[⟨"i9", "cust", 500, "THB", some "gs9", none, "awaiting_owner",
            some 90, none⟩,
          ⟨"i2", "cust", 300, "THB", none, none, "awaiting_owner",
            some 80, none⟩,
          ⟨"i3", "cust", 200, "THB", none, none, "confirmed",
            some 70, some "p9"⟩,
          ⟨"i4", "cust", 100, "THB", none, none, "awaiting_owner",
            some 1, none⟩],
         [⟨"p9", "cust", 200, "THB", none, none, "confirmed"⟩]⟩
        "cust" (some "gs://new") (some "mNew") 50).1 = some "i2") ∧
    ((attach_recent_intent_by_user
        ⟨[⟨"i3", "cust", 200, "THB", none, none, "confirmed",
            some 70, some "p9"⟩],
         [⟨"p9", "cust", 200, "THB", none, none, "confirmed"⟩]⟩
        "cust" (some "gs://new") (some "mNew") 50).1 = some "i3" ∧
      (attach_recent_intent_by_user
        ⟨[⟨"i3", "cust", 200, "THB", none, none, "confirmed",
            some 70, some "p9"⟩],
         [⟨"p9", "cust", 200, "THB", none, none, "confirmed"⟩]⟩
        "cust" (some "gs://new") (some "mNew") 50).2.payments =
        [⟨"p9", "cust", 200, "THB", some "gs://new", some "mNew",
          "confirmed"⟩]) := by
  constructor
  · have h := (claim_C7_attach_matching
      ⟨[⟨"i9", "cust", 500, "THB", some "gs9", none, "awaiting_owner",
          some 90, none⟩,
        ⟨"i2", "cust", 300, "THB", none, none, "awaiting_owner",
          some 80, none⟩,
        ⟨"i3", "cust", 200, "THB", none, none, "confirmed",
          some 70, some "p9"⟩,
        ⟨"i4", "cust", 100, "THB", none, none, "awaiting_owner",
          some 1, none⟩],
       [⟨"p9", "cust", 200, "THB", none, none, "confirmed"⟩]⟩
      "cust" (some "gs://new") (some "mNew") 50 (by simp) (by decide)).2.1
      ⟨"i2", "cust", 300, "THB", none, none, "awaiting_owner", some 80, none⟩
      (by decide)
    exact h.1
  · have h := (claim_C7_attach_matching
      ⟨[⟨"i3", "cust", 200, "THB", none, none, "confirmed",
          some 70, some "p9"⟩],
       [⟨"p9", "cust", 200, "THB", none, none, "confirmed"⟩]⟩
      "cust" (some "gs://new") (some "mNew") 50 (by simp) (by decide)).2.2
      (by decide)
      ⟨"i3", "cust", 200, "THB", none, none, "confirmed", some 70, some "p9"⟩
      (by decide)
    refine ⟨h.1, ?_⟩
    rw [h.2.2.1 "p9" rfl]
    decide

/-! ## 7. Admin onboarding conversation — C5 and C6

`lineoa_frontend.py`: the admin start branch (1594-1657) and the admin
non-owner onboarding block (1819-1948); `admin/onboarding.py`:
`finalize_request_from_session` (90-138), `get/save/clear_session`.

The transition below covers one inbound admin-context message from a
non-owner, already past dedup.  The `messaging_user_id` backfill
(lines 1587-1589) touches no other field and is omitted.  Replies are pure
side effects and are not modelled; what matters for the claims is the
session state (kept/changed/cleared) and the emitted onboarding request
record.  Python's `str.strip`, `str.lower`, `in`, `startswith`,
`split(":", 1)` and truthiness are modelled by the executable helpers
below. -/

/-- Python truthiness of an optional string field. -/
def truthy (o : Option String) : Bool :=
  match o with
  | some s => s ≠ ""
  | none => false

def isPyWs (c : Char) : Bool := c = ' ' || c = '\t' || c = '\n' || c = '\r'

/-- Python `str.strip()`. -/
def pyStrip (s : String) : String :=
  String.mk (((s.toList.dropWhile isPyWs).reverse.dropWhile isPyWs).reverse)

/-- Python `str.lower()` (ASCII case folding; Thai text is unaffected in
both). -/
def pyLower (s : String) : String := String.mk (s.toList.map Char.toLower)

def isPrefixL : List Char → List Char → Bool
  | [], _ => true
  | _ :: _, [] => false
  | a :: as, b :: bs => a == b && isPrefixL as bs

def containsL (pat : List Char) : List Char → Bool
  | [] => isPrefixL pat []
  | c :: rest => isPrefixL pat (c :: rest) || containsL pat rest

/-- Python `pat in s`. -/
def pyContains (s pat : String) : Bool := containsL pat.toList s.toList

/-- Python `s.startswith(pat)`. -/
def pyStartsWith (s pat : String) : Bool := isPrefixL pat.toList s.toList

/-- Everything after the first occurrence of `ch`
(`s.split(ch, 1)[1]`), or `none` when `ch` does not occur. -/
def afterChar (ch : Char) : List Char → Option (List Char)
  | [] => none
  | c :: rest => if c == ch then some rest else afterChar ch rest

/-- A location value as stored in the session (text address or shared
location message). -/
structure LocationVal where
  title : Option String
  address : Option String
  lat : Option ℚ
  lng : Option ℚ
  deriving DecidableEq, Repr

/-- The onboarding `ConversationSession`
(`onboarding/sessions/users/{userId}`). -/
structure Session where
  step : Nat
  name : Option String
  phone : Option String
  shop : Option String
  location : Option LocationVal
  payment_promptpay : Option String
  payment_note : Option String
  payment_qr_url : Option String
  deriving DecidableEq, Repr

/-- One inbound admin-context message from a non-owner. `image` carries the
result of download-and-upload of the payment QR (`none` = failure). -/
inductive AdminMsg where
  | text (t : String)
  | location (title addr : Option String) (lat lng : Option ℚ)
  | image (uploaded_url : Option String)
  | other
  deriving DecidableEq, Repr

/-- `_normalize_phone_th` (431-437): keep the (unicode) digits; a 10-digit
number starting with 0 and a `66…` international form normalise; otherwise
at least 9 digits pass through, fewer give `None`. -/
def normalize_phone_th (s : String) : Option String :=
  let digits := s.toList.filter Char.isDigit
  if digits.length = 10 ∧ isPrefixL ['0'] digits then some (String.mk digits)
  else if isPrefixL ['6', '6'] digits ∧ digits.length = 11 then
    some (String.mk ('0' :: digits.drop 2))
  else if 9 ≤ digits.length then some (String.mk digits)
  else none

/-- The emitted durable onboarding request
(`onboarding/requests/items/{reqId}`, payload of
`finalize_request_from_session` 116-137). -/
structure OnboardRequest where
  user_id : String
  name : Option String
  phone : Option String
  shop : Option String
  location : Option LocationVal
  payment_promptpay : Option String
  payment_note : Option String
  payment_qr_url : Option String
  deriving DecidableEq, Repr

/-- `finalize_request_from_session` (90-138): `None` unless name, phone and
shop are all truthy; otherwise a durable pending request carrying the
session's fields (the dedupe path refreshes an identical pending request —
either way a durable record with this payload exists afterwards). -/
def finalize_request_from_session (user_id : String) (s : Session) :
    Option OnboardRequest :=
  if truthy s.name && truthy s.phone && truthy s.shop then
    some { user_id := user_id, name := s.name, phone := s.phone,
           shop := s.shop, location := s.location,
           payment_promptpay := s.payment_promptpay,
           payment_note := s.payment_note,
           payment_qr_url := s.payment_qr_url }
  else none

/-- Session outcome: still active (possibly updated) or deleted. -/
inductive SessState where
  | active (s : Session)
  | cleared
  deriving DecidableEq, Repr

/-- Result of handling one message: the session afterwards and the
onboarding request emitted by a successful finalization, if any. -/
structure StepResult where
  sess : SessState
  finalized : Option OnboardRequest
  deriving DecidableEq, Repr

/-- The recognised start keywords (line 1595), matched as substrings of the
stripped lower-cased text (line 1596). -/
def isStartText (t : String) : Bool :=
  pyContains (pyLower (pyStrip t)) "เริ่มต้นใช้งาน" ||
    pyContains (pyLower (pyStrip t)) "เริ่มต้นเปิดร้านของคุณ"

/-- The recognised confirm keywords (line 1834). -/
def isConfirmText (t : String) : Bool :=
  pyLower (pyStrip t) == "ยืนยันข้อมูล" || pyLower (pyStrip t) == "ยืนยัน"

/-- The admin-context non-owner transition of `line_webhook`: the start
branch (1601-1657, which unconditionally re-initialises the session at step
1), then cancel (1822), edit (1829), confirm/finalize (1834-1847), and the
step handlers 1 through 5-and-beyond (1849-1945).  A message matching no
branch leaves the session untouched. -/
def admin_onboarding_transition (user_id : String) (sess : Session)
    (m : AdminMsg) : StepResult :=
  match m with
  | AdminMsg.text t =>
      let low := pyLower (pyStrip t)
      let stripped := pyStrip t
      if isStartText t then
        { sess := SessState.active { sess with step := 1 }, finalized := none }
      else if low = "ยกเลิก" ∧ sess.step ≠ 0 then
        { sess := SessState.cleared, finalized := none }
      else if stripped = "แก้ไขข้อมูล" then
        { sess := SessState.active sess, finalized := none }
      else if isConfirmText t then
        if truthy sess.name && truthy sess.phone && truthy sess.shop &&
            (truthy sess.payment_promptpay || truthy sess.payment_qr_url) then
          match finalize_request_from_session user_id sess with
          | some req => { sess := SessState.cleared, finalized := some req }
          | none => { sess := SessState.active sess, finalized := none }
        else { sess := SessState.active sess, finalized := none }
      else if sess.step = 1 ∧ stripped ≠ "" ∧
          stripped ≠ "เริ่มต้นใช้งาน" ∧ stripped ≠ "เริ่มต้นเปิดร้านของคุณ" then
        { sess := SessState.active { sess with name := some stripped, step := 2 },
          finalized := none }
      else if sess.step = 2 then
        let phone := (normalize_phone_th t).getD stripped
        if phone ≠ "" ∧ 9 ≤ phone.length then
          { sess := SessState.active { sess with phone := some phone, step := 3 },
            finalized := none }
        else { sess := SessState.active sess, finalized := none }
      else if sess.step = 3 ∧ stripped ≠ "" then
        { sess := SessState.active { sess with shop := some stripped, step := 4 },
          finalized := none }
      else if sess.step = 4 ∧ stripped ≠ "" then
        let loc : LocationVal :=
          if low = "ร้านออนไลน์" then
            ⟨none, some "ร้านออนไลน์", none, none⟩
          else ⟨none, some stripped, none, none⟩
        { sess := SessState.active { sess with location := some loc, step := 5 },
          finalized := none }
      else if 5 ≤ sess.step ∧ stripped ≠ "" then
        if pyStartsWith (pyLower stripped) "note" ||
            pyStartsWith (pyLower stripped) "หมายเหตุ" then
          let note_val :=
            match afterChar ':' stripped.toList with
            | some rest => pyStrip (String.mk rest)
            | none => stripped
          { sess := SessState.active
              { sess with
                payment_note := some (if note_val ≠ "" then note_val else stripped),
                step := 5 },
            finalized := none }
        else if !truthy sess.payment_promptpay then
          { sess := SessState.active
              { sess with payment_promptpay := some stripped, step := 5 },
            finalized := none }
        else
          { sess := SessState.active
              { sess with payment_note := some stripped, step := 5 },
            finalized := none }
      else { sess := SessState.active sess, finalized := none }
  | AdminMsg.location title addr lat lng =>
      if sess.step = 4 then
        { sess := SessState.active
            { sess with location := some ⟨title, addr, lat, lng⟩, step := 5 },
          finalized := none }
      else { sess := SessState.active sess, finalized := none }
  | AdminMsg.image uploaded_url =>
      if 5 ≤ sess.step then
        match uploaded_url with
        | some url =>
            { sess := SessState.active
                { sess with payment_qr_url := some url, step := 5 },
              finalized := none }
        | none => { sess := SessState.active sess, finalized := none }
      else { sess := SessState.active sess, finalized := none }
  | AdminMsg.other => { sess := SessState.active sess, finalized := none }

/-- Whether a message is the cancel keyword. -/
def isCancelMsg (m : AdminMsg) : Bool :=
  match m with
  | AdminMsg.text t => pyLower (pyStrip t) == "ยกเลิก"
  | _ => false

/-- Whether a message carries a recognised start keyword. -/
def isStartMsg (m : AdminMsg) : Bool :=
  match m with
  | AdminMsg.text t => isStartText t
  | _ => false

theorem active_result {s1 : Session} {Q : Prop} {P : Session → Prop}
    (hP : P s1) :
    (SessState.active s1 = SessState.cleared → Q) ∧
      (∀ s2, SessState.active s1 = SessState.active s2 → P s2) := by
  constructor
  · intro h
    exact SessState.noConfusion h
  · intro s2 h
    injection h with h2
    exact h2 ▸ hP

theorem cleared_result {Q : Prop} {P : Session → Prop} (hQ : Q) :
    (SessState.cleared = SessState.cleared → Q) ∧
      (∀ s2, SessState.cleared = SessState.active s2 → P s2) := by
  constructor
  · intro _
    exact hQ
  · intro s2 h
    exact SessState.noConfusion h

/-- C5 as the spec states it: every transition keeps the step, advances it by
exactly one, is a cancel reset, or is a clearing finalization. -/
def step_monotone_claim : Prop :=
  ∀ (user_id : String) (sess : Session) (m : AdminMsg), sess.step ≤ 5 →
    ((admin_onboarding_transition user_id sess m).sess = SessState.cleared →
      isCancelMsg m = true ∨
        (admin_onboarding_transition user_id sess m).finalized.isSome = true) ∧
    (∀ s2, (admin_onboarding_transition user_id sess m).sess =
        SessState.active s2 →
      s2.step = sess.step ∨ s2.step = sess.step + 1)

/-- **C5, counterexample.**  A session at step 2 receiving the start keyword
"เริ่มต้นใช้งาน" is re-initialised at step 1 — a decrease that is neither a
cancel nor a finalization — so the claimed transition relation is violated. -/
theorem claim_C5_counterexample : ¬step_monotone_claim := by
  intro h
  have h2 := (h "u" ⟨2, some "A", none, none, none, none, none, none⟩
    (AdminMsg.text "เริ่มต้นใช้งาน") (by decide)).2
    ⟨1, some "A", none, none, none, none, none, none⟩ (by decide)
  revert h2
  decide

/-- **C5, amended.**  Every admin-onboarding transition keeps the step,
advances it by exactly one, clears the session (only on cancel or on a
finalization that emitted a record), or re-initialises it at step 1 on a
recognised start keyword; and the step stays ≤ 5. -/
theorem claim_C5_step_transitions (user_id : String) (sess : Session)
    (m : AdminMsg) (hstep : sess.step ≤ 5) :
    ((admin_onboarding_transition user_id sess m).sess = SessState.cleared →
      isCancelMsg m = true ∨
        (admin_onboarding_transition user_id sess m).finalized.isSome = true) ∧
    (∀ s2, (admin_onboarding_transition user_id sess m).sess =
        SessState.active s2 →
      (s2.step = sess.step ∨ s2.step = sess.step + 1 ∨
        (isStartMsg m = true ∧ s2.step = 1)) ∧ s2.step ≤ 5) := by
  cases m with
  | text t =>
      unfold admin_onboarding_transition
      by_cases hstart : isStartText t = true
      · simp only [if_pos hstart]
        exact active_result ⟨Or.inr (Or.inr ⟨by simp [isStartMsg, hstart], rfl⟩),
          (by decide : (1 : Nat) ≤ 5)⟩
      · simp only [if_neg hstart]
        by_cases hcancel : pyLower (pyStrip t) = "ยกเลิก" ∧ sess.step ≠ 0
        · simp only [if_pos hcancel]
          refine ⟨fun _ => Or.inl ?_, fun s2 h => SessState.noConfusion h⟩
          simp only [isCancelMsg]
          rw [hcancel.1]
          decide
        · simp only [if_neg hcancel]
          by_cases hedit : pyStrip t = "แก้ไขข้อมูล"
          · simp only [if_pos hedit]
            exact active_result ⟨Or.inl rfl, hstep⟩
          · simp only [if_neg hedit]
            by_cases hconfirm : isConfirmText t = true
            · simp only [if_pos hconfirm]
              by_cases hfields : (truthy sess.name && truthy sess.phone &&
                  truthy sess.shop &&
                  (truthy sess.payment_promptpay ||
                    truthy sess.payment_qr_url)) = true
              · simp only [if_pos hfields]
                unfold finalize_request_from_session
                rw [if_pos (by
                  revert hfields
                  cases truthy sess.name <;> cases truthy sess.phone <;>
                    cases truthy sess.shop <;> simp)]
                exact cleared_result (Or.inr (by simp))
              · simp only [if_neg hfields]
                exact active_result ⟨Or.inl rfl, hstep⟩
            · simp only [if_neg hconfirm]
              by_cases h1 : sess.step = 1 ∧ pyStrip t ≠ "" ∧
                  pyStrip t ≠ "เริ่มต้นใช้งาน" ∧ pyStrip t ≠ "เริ่มต้นเปิดร้านของคุณ"
              · simp only [if_pos h1]
                exact active_result ⟨Or.inr (Or.inl (by rw [h1.1])),
                  (by decide : (2 : Nat) ≤ 5)⟩
              · simp only [if_neg h1]
                by_cases h2 : sess.step = 2
                · simp only [if_pos h2]
                  by_cases hph : ((normalize_phone_th t).getD (pyStrip t) ≠ "" ∧
                      9 ≤ ((normalize_phone_th t).getD (pyStrip t)).length)
                  · simp only [if_pos hph]
                    exact active_result ⟨Or.inr (Or.inl (by rw [h2])),
                      (by decide : (3 : Nat) ≤ 5)⟩
                  · simp only [if_neg hph]
                    exact active_result ⟨Or.inl rfl, hstep⟩
                · simp only [if_neg h2]
                  by_cases h3 : sess.step = 3 ∧ pyStrip t ≠ ""
                  · simp only [if_pos h3]
                    exact active_result ⟨Or.inr (Or.inl (by rw [h3.1])),
                      (by decide : (4 : Nat) ≤ 5)⟩
                  · simp only [if_neg h3]
                    by_cases h4 : sess.step = 4 ∧ pyStrip t ≠ ""
                    · simp only [if_pos h4]
                      exact active_result ⟨Or.inr (Or.inl (by rw [h4.1])),
                        (by decide : (5 : Nat) ≤ 5)⟩
                    · simp only [if_neg h4]
                      by_cases h5 : 5 ≤ sess.step ∧ pyStrip t ≠ ""
                      · have hs5 : sess.step = 5 := le_antisymm hstep h5.1
                        simp only [if_pos h5]
                        by_cases hnote : (pyStartsWith (pyLower (pyStrip t)) "note" ||
                            pyStartsWith (pyLower (pyStrip t)) "หมายเหตุ") = true
                        · simp only [if_pos hnote]
                          exact active_result ⟨Or.inl (by rw [hs5]),
                            (by decide : (5 : Nat) ≤ 5)⟩
                        · simp only [if_neg hnote]
                          by_cases hpp : (!truthy sess.payment_promptpay) = true
                          · simp only [if_pos hpp]
                            exact active_result ⟨Or.inl (by rw [hs5]),
                              (by decide : (5 : Nat) ≤ 5)⟩
                          · simp only [if_neg hpp]
                            exact active_result ⟨Or.inl (by rw [hs5]),
                              (by decide : (5 : Nat) ≤ 5)⟩
                      · simp only [if_neg h5]
                        exact active_result ⟨Or.inl rfl, hstep⟩
  | location title addr lat lng =>
      unfold admin_onboarding_transition
      by_cases h4 : sess.step = 4
      · simp only [if_pos h4]
        exact active_result ⟨Or.inr (Or.inl (by rw [h4])),
          (by decide : (5 : Nat) ≤ 5)⟩
      · simp only [if_neg h4]
        exact active_result ⟨Or.inl rfl, hstep⟩
  | image uploaded_url =>
      unfold admin_onboarding_transition
      by_cases h5 : 5 ≤ sess.step
      · have hs5 : sess.step = 5 := le_antisymm hstep h5
        simp only [if_pos h5]
        cases uploaded_url with
        | some url =>
            exact active_result ⟨Or.inl (by rw [hs5]),
              (by decide : (5 : Nat) ≤ 5)⟩
        | none => exact active_result ⟨Or.inl rfl, hstep⟩
      · simp only [if_neg h5]
        exact active_result ⟨Or.inl rfl, hstep⟩
  | other =>
      exact active_result ⟨Or.inl rfl, hstep⟩

/-- Witness for the amended C5 at concrete inputs: a valid name at step 1
advances to step 2 (next ordinal, step stays ≤ 5). -/
theorem claim_C5_step_transitions_witness :
    ((⟨1, none, none, none, none, none, none, none⟩ : Session).step ≤ 5) ∧
      ((2 = 1 ∨ 2 = 1 + 1 ∨
          (isStartMsg (AdminMsg.text "Somchai Jaidee") = true ∧ 2 = 1)) ∧
        2 ≤ 5) := by
  refine ⟨by decide, ?_⟩
  have h := (claim_C5_step_transitions "u"
    ⟨1, none, none, none, none, none, none, none⟩
    (AdminMsg.text "Somchai Jaidee") (by decide)).2
    ⟨2, some "Somchai Jaidee", none, none, none, none, none, none⟩ (by decide)
  exact h

/-- **C6, counterexample.**  A session holding name, phone, shop and a
payment detail but **no location** still finalizes on "ยืนยัน": a durable
request is emitted (with `location = none`) and the session is cleared —
neither `line_webhook`'s field check (line 1836) nor
`finalize_request_from_session` (line 92) requires the location, contrary to
the claim. -/
theorem claim_C6_counterexample :
    (admin_onboarding_transition "u"
        ⟨5, some "Somchai", some "0812345678", some "ShopX", none,
          some "0812345678", none, none⟩
        (AdminMsg.text "ยืนยัน")).sess = SessState.cleared ∧
      (admin_onboarding_transition "u"
        ⟨5, some "Somchai", some "0812345678", some "ShopX", none,
          some "0812345678", none, none⟩
        (AdminMsg.text "ยืนยัน")).finalized =
        some ⟨"u", some "Somchai", some "0812345678", some "ShopX", none,
          some "0812345678", none, none⟩ ∧
      (⟨5, some "Somchai", some "0812345678", some "ShopX", none,
        some "0812345678", none, none⟩ : Session).location = none := by
  decide

/-- **C6, amended.**  A recognised confirm keyword (that is not also a start
keyword) finalizes the session iff name, phone, label and at least one
payment detail (PromptPay text or QR image) are truthy — location is *not*
required: on success a durable onboarding request carrying the session's
fields is emitted and the session is cleared; with any of those required
fields missing nothing is emitted and the session is kept unchanged
(re-prompt). -/
theorem claim_C6_finalize_requires_fields (user_id : String) (sess : Session)
    (t : String) (hconfirm : isConfirmText t = true)
    (hnstart : isStartText t = false) :
    ((truthy sess.name && truthy sess.phone && truthy sess.shop &&
        (truthy sess.payment_promptpay || truthy sess.payment_qr_url)) = true →
      (admin_onboarding_transition user_id sess (AdminMsg.text t)).sess =
          SessState.cleared ∧
        (admin_onboarding_transition user_id sess (AdminMsg.text t)).finalized =
          some ⟨user_id, sess.name, sess.phone, sess.shop, sess.location,
            sess.payment_promptpay, sess.payment_note,
            sess.payment_qr_url⟩) ∧
    ((truthy sess.name && truthy sess.phone && truthy sess.shop &&
        (truthy sess.payment_promptpay || truthy sess.payment_qr_url)) = false →
      (admin_onboarding_transition user_id sess (AdminMsg.text t)).sess =
          SessState.active sess ∧
        (admin_onboarding_transition user_id sess (AdminMsg.text t)).finalized =
          none) := by
  have hlow : pyLower (pyStrip t) = "ยืนยันข้อมูล" ∨
      pyLower (pyStrip t) = "ยืนยัน" := by
    unfold isConfirmText at hconfirm
    simp only [Bool.or_eq_true] at hconfirm
    rcases hconfirm with h | h
    · exact Or.inl (eq_of_beq h)
    · exact Or.inr (eq_of_beq h)
  have hns : ¬(isStartText t = true) := by
    rw [hnstart]
    decide
  have hcancelF : ¬(pyLower (pyStrip t) = "ยกเลิก" ∧ sess.step ≠ 0) := by
    rintro ⟨hc, -⟩
    rcases hlow with h | h <;> rw [h] at hc <;> exact absurd hc (by decide)
  have heditF : ¬(pyStrip t = "แก้ไขข้อมูล") := by
    intro he
    have hl2 : pyLower (pyStrip t) = "แก้ไขข้อมูล" := by
      rw [he]
      decide
    rcases hlow with h | h <;> rw [h] at hl2 <;> exact absurd hl2 (by decide)
  constructor
  · intro hfields
    have hnps : (truthy sess.name && truthy sess.phone && truthy sess.shop)
        = true := by
      revert hfields
      cases truthy sess.name <;> cases truthy sess.phone <;>
        cases truthy sess.shop <;> simp
    unfold admin_onboarding_transition
    simp only [if_neg hns, if_neg hcancelF, if_neg heditF, if_pos hconfirm,
      if_pos hfields]
    unfold finalize_request_from_session
    simp only [if_pos hnps]
    exact ⟨trivial, trivial⟩
  · intro hfields
    unfold admin_onboarding_transition
    simp only [if_neg hns, if_neg hcancelF, if_neg heditF, if_pos hconfirm,
      if_neg (show ¬((truthy sess.name && truthy sess.phone &&
        truthy sess.shop && (truthy sess.payment_promptpay ||
          truthy sess.payment_qr_url)) = true) by rw [hfields]; decide)]
    exact ⟨trivial, trivial⟩

/-- Witness for the amended C6: "ยืนยัน" with all required fields present
(and no location) finalizes and clears; the same message with the payment
detail missing keeps the session and emits nothing. -/
theorem claim_C6_finalize_requires_fields_witness :
    (isConfirmText "ยืนยัน" = true ∧ isStartText "ยืนยัน" = false) ∧
      ((admin_onboarding_transition "u"
          ⟨5, some "Somchai", some "0812345678", some "ShopX", none,
            some "0812345678", none, none⟩
          (AdminMsg.text "ยืนยัน")).sess = SessState.cleared ∧
        (admin_onboarding_transition "u"
          ⟨5, some "Somchai", some "0812345678", some "ShopX", none,
            some "0812345678", none, none⟩
          (AdminMsg.text "ยืนยัน")).finalized =
          some ⟨"u", some "Somchai", some "0812345678", some "ShopX", none,
            some "0812345678", none, none⟩) ∧
      ((admin_onboarding_transition "u"
          ⟨5, some "Somchai", some "0812345678", some "ShopX", none,
            none, none, none⟩
          (AdminMsg.text "ยืนยัน")).sess =
          SessState.active ⟨5, some "Somchai", some "0812345678", some "ShopX",
            none, none, none, none⟩ ∧
        (admin_onboarding_transition "u"
          ⟨5, some "Somchai", some "0812345678", some "ShopX", none,
            none, none, none⟩
          (AdminMsg.text "ยืนยัน")).finalized = none) := by
  refine ⟨⟨by decide, by decide⟩, ?_, ?_⟩
  · exact (claim_C6_finalize_requires_fields "u"
      ⟨5, some "Somchai", some "0812345678", some "ShopX", none,
        some "0812345678", none, none⟩
      "ยืนยัน" (by decide) (by decide)).1 (by decide)
  · exact (claim_C6_finalize_requires_fields "u"
      ⟨5, some "Somchai", some "0812345678", some "ShopX", none,
        none, none, none⟩
      "ยืนยัน" (by decide) (by decide)).2 (by decide)

/-! ## 8. Batch processing of webhook events — C8

The event loop of `line_webhook` (`for ev in events:`, lines 1246-2193).
Each `continue` ends one event's handling; the consumer-OA start-keyword
branch instead ends with `return "ok", 200` (line 1713), which exits the
whole request handler.  (The per-event `try/except` that §7 of the spec
relies on is commented out at lines 2189-2191.)  The loop skeleton below
keeps every branch boundary that decides whether the *next* event is
reached: postback handling, non-message skip, missing user skip, dedup
skip, the admin start branch (which `continue`s), and the consumer start
branch (which returns). -/

/-- The control-flow-relevant fields of one event in the webhook batch. -/
structure WebhookEvent where
  ev_type : String
  postback_data : Option String
  mtype : Option String
  user_id : String
  event_id : String
  text : Option String
  deriving DecidableEq, Repr

/-- What happened to one event of the batch. -/
inductive EvOutcome where
  | postbackProcessed
  | skippedNonMessage
  | missingUser
  | duplicateSkipped
  | adminStartHandled
  | consumerStartReturned
  | handled
  deriving DecidableEq, Repr

/-- The Python membership test of line 1669:
`t_start in ("เริ่มต้นใช้งาน", "เริ่มต้น", "start", "Start")`. -/
def consumerStartWord (t : String) : Bool :=
  t == "เริ่มต้นใช้งาน" || t == "เริ่มต้น" || t == "start" || t == "Start"

/-- The event loop of `line_webhook`: one outcome per event reached; the
consumer start branch (line 1713) `return`s from the handler, so the
remaining events of the batch produce no outcome at all. -/
def processEvents (oa_ctx shop_id : String) :
    DedupStore → List WebhookEvent → List EvOutcome
  | _, [] => []
  | store, ev :: rest =>
      if ev.ev_type = "postback" then
        let store2 :=
          if (ev.postback_data.getD "") = "" then store
          else (ensure_event_once store shop_id ev.event_id).2
        EvOutcome.postbackProcessed :: processEvents oa_ctx shop_id store2 rest
      else if ev.ev_type ≠ "message" then
        EvOutcome.skippedNonMessage :: processEvents oa_ctx shop_id store rest
      else if ev.user_id = "" then
        EvOutcome.missingUser :: processEvents oa_ctx shop_id store rest
      else
        let r := ensure_event_once store shop_id ev.event_id
        if r.1 = false then
          EvOutcome.duplicateSkipped :: processEvents oa_ctx shop_id r.2 rest
        else
          let low := pyLower (pyStrip (ev.text.getD ""))
          let is_admin_start := oa_ctx = "admin" ∧
            (pyContains low "เริ่มต้นใช้งาน" ||
              pyContains low "เริ่มต้นเปิดร้านของคุณ") = true
          if is_admin_start ∧ ev.mtype = some "text" then
            EvOutcome.adminStartHandled :: processEvents oa_ctx shop_id r.2 rest
          else if oa_ctx = "consumer" ∧
              consumerStartWord (pyStrip (ev.text.getD "")) = true ∧
              ¬is_admin_start then
            [EvOutcome.consumerStartReturned]
          else
            EvOutcome.handled :: processEvents oa_ctx shop_id r.2 rest

/-- Without the consumer start branch, the loop never aborts: every event of the
batch gets exactly one outcome. -/
theorem processEvents_length_of_no_consumer_start (oa_ctx shop_id : String)
    (events : List WebhookEvent)
    (h : ∀ ev ∈ events, ¬(oa_ctx = "consumer" ∧
      consumerStartWord (pyStrip (ev.text.getD "")) = true ∧
      ¬(oa_ctx = "admin" ∧
        (pyContains (pyLower (pyStrip (ev.text.getD ""))) "เริ่มต้นใช้งาน" ||
          pyContains (pyLower (pyStrip (ev.text.getD "")))
            "เริ่มต้นเปิดร้านของคุณ") = true))) :
    ∀ store, (processEvents oa_ctx shop_id store events).length =
      events.length := by
  induction events with
  | nil =>
      intro store
      rfl
  | cons ev rest ih =>
      intro store
      have hev := h ev (List.mem_cons_self ev rest)
      have h2 : ∀ e ∈ rest, ¬(oa_ctx = "consumer" ∧
          consumerStartWord (pyStrip (e.text.getD "")) = true ∧
          ¬(oa_ctx = "admin" ∧
            (pyContains (pyLower (pyStrip (e.text.getD ""))) "เริ่มต้นใช้งาน" ||
              pyContains (pyLower (pyStrip (e.text.getD "")))
                "เริ่มต้นเปิดร้านของคุณ") = true)) :=
        fun e he => h e (List.mem_cons_of_mem ev he)
      have ih2 := ih h2
      unfold processEvents
      by_cases hpb : ev.ev_type = "postback"
      · simp only [if_pos hpb, List.length_cons, ih2]
      · simp only [if_neg hpb]
        by_cases hmsg : ev.ev_type ≠ "message"
        · simp only [if_pos hmsg, List.length_cons, ih2]
        · simp only [if_neg hmsg]
          by_cases huser : ev.user_id = ""
          · simp only [if_pos huser, List.length_cons, ih2]
          · simp only [if_neg huser]
            by_cases hdup : (ensure_event_once store shop_id ev.event_id).1 = false
            · simp only [if_pos hdup, List.length_cons, ih2]
            · simp only [if_neg hdup]
              by_cases hadm : (oa_ctx = "admin" ∧
                  (pyContains (pyLower (pyStrip (ev.text.getD "")))
                      "เริ่มต้นใช้งาน" ||
                    pyContains (pyLower (pyStrip (ev.text.getD "")))
                      "เริ่มต้นเปิดร้านของคุณ") = true) ∧ ev.mtype = some "text"
              · simp only [if_pos hadm, List.length_cons, ih2]
              · simp only [if_neg hadm]
                rw [if_neg hev]
                simp only [List.length_cons, ih2]

/-- **C8.** Bug evidence.  On the consumer context, a batch whose first
event is the text "เริ่มต้นใช้งาน" (the start keyword) produces only that
event's outcome: the handler returns at line 1713 and the second event is
never processed.  With the order swapped both events are processed, and on
the admin context the same two events are both processed — so the early
return in the consumer start branch is the sole abort and it drops the
remainder of the batch, contradicting the claim that every event is
processed independently of its siblings. -/
theorem claim_C8_batch_abort :
    (processEvents "consumer" "s" []
        [⟨"message", none, some "text", "U1", "e1", some "เริ่มต้นใช้งาน"⟩,
         ⟨"message", none, some "text", "U2", "e2", some "hello"⟩] =
      [EvOutcome.consumerStartReturned]) ∧
    (processEvents "consumer" "s" []
        [⟨"message", none, some "text", "U2", "e2", some "hello"⟩,
         ⟨"message", none, some "text", "U1", "e1", some "เริ่มต้นใช้งาน"⟩] =
      [EvOutcome.handled, EvOutcome.consumerStartReturned]) ∧
    (processEvents "admin" "s" []
        [⟨"message", none, some "text", "U1", "e1", some "เริ่มต้นใช้งาน"⟩,
         ⟨"message", none, some "text", "U2", "e2", some "hello"⟩] =
      [EvOutcome.adminStartHandled, EvOutcome.handled]) := by
  refine ⟨?_, ?_, ?_⟩ <;> decide

end LineOA
